import Mathlib

/-!
# Verification of the nedl-data dimensional-model transform and DQ engine

Shallow embedding of the core transform/validation modules of the repository:
`src/validation/data_quality.py`, `src/transform/fact_transaction.py`,
`src/transform/dim_property.py`, `src/transform/dim_entity.py`,
`src/transform/bridges.py`, `src/raw/cherre_transactions.py`,
`src/raw/cherre_grantors.py`.

Python records become Lean structures with `Option` fields for nullable
values; Python dict/defaultdict semantics (insertion order, later-wins
assignment) are modelled explicitly.
-/

namespace NedlData

/-! ## Python-semantics helpers -/

/-- Python truthiness of an optional string (`None` and `""` are falsy). -/
def pyTruthyStr : Option String → Bool
  | some s => s ≠ ""
  | none => false

/-- Python truthiness of an optional integer (`None` and `0` are falsy). -/
def pyTruthyInt : Option Int → Bool
  | some v => v ≠ 0
  | none => false

/-- Python `a or b` for optional integers: falls back to `b` when `a` is
`None` or `0` (falsy). Models `hist.get(k) or prop.get(k)`. -/
def pyOrInt (a b : Option Int) : Option Int :=
  match a with
  | some v => if v = 0 then b else some v
  | none => b

/-- First-occurrence deduplication, keeping input order: models iterating
the keys of a Python `defaultdict` filled by appending in input order.
`seen` accumulates keys already emitted. -/
def dedupFirstAux {K : Type} [DecidableEq K] (seen : List K) : List K → List K
  | [] => []
  | k :: rest =>
    if k ∈ seen then dedupFirstAux seen rest
    else k :: dedupFirstAux (k :: seen) rest

def dedupFirst {K : Type} [DecidableEq K] (l : List K) : List K :=
  dedupFirstAux [] l

/-- Association-list read: models Python `d.get(k)` on a dict represented
as its item list in insertion order. -/
def dget {K V : Type} [DecidableEq K] (d : List (K × V)) (k : K) : Option V :=
  (d.find? (fun p => p.1 = k)).map (fun p => p.2)

/-- Python dict assignment `d[k] = v`: replaces in place when the key
exists, otherwise appends (insertion order preserved). -/
def dictSet {K V : Type} [DecidableEq K] (d : List (K × V)) (k : K) (v : V) :
    List (K × V) :=
  if (d.find? (fun p => p.1 = k)).isSome then
    d.map (fun p => if p.1 = k then (k, v) else p)
  else d ++ [(k, v)]

/-- Building a Python dict from a sequence of key/value assignments,
starting from dict `d` (later assignments win; first-assignment order). -/
def pyDictFrom {K V : Type} [DecidableEq K] (d : List (K × V)) :
    List (K × V) → List (K × V)
  | [] => d
  | (k, v) :: rest => pyDictFrom (dictSet d k v) rest

def pyDict {K V : Type} [DecidableEq K] (l : List (K × V)) : List (K × V) :=
  pyDictFrom [] l

/-! ## Data-Quality engine (`src/validation/data_quality.py`) -/

/-- One entry of `DQReport.checks` as appended by `dq_check`
(the Python code formats `percentage` as a string; we keep the exact
rational value, which determines that string). -/
structure DQCheckRec where
  category : String
  check : String
  status : String
  passed : Nat
  total : Nat
  percentage : ℚ
  message : String
deriving DecidableEq, Repr

structure StatRec where
  category : String
  metric : String
  value : String
  description : String
deriving DecidableEq, Repr

/-- The `DQReport` dataclass. -/
structure DQReport where
  checks : List DQCheckRec
  statistics : List StatRec
deriving DecidableEq, Repr

def DQReport.passedCount (r : DQReport) : Nat :=
  (r.checks.filter (fun c => c.status = "PASS")).length

def DQReport.failedCount (r : DQReport) : Nat :=
  (r.checks.filter (fun c => c.status = "FAIL")).length

def DQReport.warningsCount (r : DQReport) : Nat :=
  (r.checks.filter (fun c => c.status = "WARN")).length

def DQReport.totalCount (r : DQReport) : Nat :=
  r.checks.length

/-- `pct = (passed / total * 100) if total > 0 else 0`. -/
def dqPct (passed total : Nat) : ℚ :=
  if total > 0 then (passed : ℚ) / (total : ℚ) * 100 else 0

/-- The PASS / WARN / FAIL classification of `dq_check` against the
integer threshold. -/
def dqStatus (pct : ℚ) (threshold : Int) : String :=
  if pct ≥ (threshold : ℚ) then "PASS"
  else if pct ≥ ((threshold - 15 : Int) : ℚ) then "WARN"
  else "FAIL"

/-- `dq_check(report, category, check_name, passed, total, message, threshold)`:
computes the percentage, classifies it, and appends the check record. -/
def dq_check (report : DQReport) (category check_name : String)
    (passed total : Nat) (message : String) (threshold : Int) : DQReport :=
  { report with
    checks := report.checks ++
      [{ category := category, check := check_name,
         status := dqStatus (dqPct passed total) threshold,
         passed := passed, total := total, percentage := dqPct passed total,
         message := message }] }

/-! ## Raw flattener (`src/raw/cherre_transactions.py`, `src/raw/cherre_grantors.py`) -/

/-- An embedded grantor sub-record of a vendor transaction. -/
structure GrantorRec where
  cherre_recorder_grantor_pk : Option Int
  grantor_name : Option String
  grantor_address : Option String
  grantor_entity_code : Option String
  grantor_first_name : Option String
  grantor_last_name : Option String
deriving DecidableEq, Repr

/-- An embedded grantee sub-record of a vendor transaction. -/
structure GranteeRec where
  cherre_recorder_grantee_pk : Option Int
  grantee_name : Option String
  grantee_address : Option String
  grantee_entity_code : Option String
  grantee_first_name : Option String
  grantee_last_name : Option String
deriving DecidableEq, Repr

/-- A raw vendor transaction record (fields used by the claims; the
remaining scalar fields are copied through unchanged by every function
below and do not affect any claim). -/
structure RawTxn where
  recorder_id : String
  tax_assessor_id : Option String
  document_recorded_date : Option String
  document_amount : Option Int
  arms_length_code : Option String
  recorder_grantor_v2__recorder_id : List GrantorRec
  recorder_grantee_v2__recorder_id : List GranteeRec
deriving DecidableEq, Repr

/-- A flattened transaction as produced by `flatten_for_load`: the nested
party lists (keys starting with `recorder_g`) are removed and the two
counts are added. -/
structure FlatTxn where
  recorder_id : String
  tax_assessor_id : Option String
  document_recorded_date : Option String
  document_amount : Option Int
  arms_length_code : Option String
  grantor_count : Nat
  grantee_count : Nat
deriving DecidableEq, Repr

def flattenOne (txn : RawTxn) : FlatTxn :=
  { recorder_id := txn.recorder_id
    tax_assessor_id := txn.tax_assessor_id
    document_recorded_date := txn.document_recorded_date
    document_amount := txn.document_amount
    arms_length_code := txn.arms_length_code
    grantor_count := txn.recorder_grantor_v2__recorder_id.length
    grantee_count := txn.recorder_grantee_v2__recorder_id.length }

/-- `flatten_for_load(transactions)`. -/
def flatten_for_load (transactions : List RawTxn) : List FlatTxn :=
  transactions.map flattenOne

/-- A flattened grantor row carrying the parent transaction FK. -/
structure GrantorRow where
  recorder_id : String
  cherre_recorder_grantor_pk : Option Int
  grantor_name : Option String
  grantor_address : Option String
  grantor_entity_code : Option String
  grantor_first_name : Option String
  grantor_last_name : Option String
deriving DecidableEq, Repr

def grantorRowOf (recorder_id : String) (g : GrantorRec) : GrantorRow :=
  { recorder_id := recorder_id
    cherre_recorder_grantor_pk := g.cherre_recorder_grantor_pk
    grantor_name := g.grantor_name
    grantor_address := g.grantor_address
    grantor_entity_code := g.grantor_entity_code
    grantor_first_name := g.grantor_first_name
    grantor_last_name := g.grantor_last_name }

/-- The grantor rows contributed by one transaction (inner loop of
`extract_from_transactions`). -/
def grantorRowsOf (txn : RawTxn) : List GrantorRow :=
  txn.recorder_grantor_v2__recorder_id.map (grantorRowOf txn.recorder_id)

/-- `extract_from_transactions(transactions)` from `cherre_grantors.py`. -/
def extract_from_transactions : List RawTxn → List GrantorRow
  | [] => []
  | t :: rest => grantorRowsOf t ++ extract_from_transactions rest

/-! ## Fact builder (`src/transform/fact_transaction.py`) -/

structure FactTxn where
  transaction_key : Nat
  recorder_id : String
  property_key : Option Nat
  transaction_date : Option String
  document_amount : Option Int
  arms_length_flag : Option String
  transaction_category : String
  is_sale : Bool
  tax_assessor_id : Option String
  grantor_count : Nat
  grantee_count : Nat
  has_multiple_parties : Bool
deriving DecidableEq, Repr

/-- The classification branch of `build_fact_transaction`:
`if txn.get('arms_length_code') and txn.get('document_amount') and
txn['document_amount'] > 0: SALE  elif txn.get('document_amount') == 0:
MORTGAGE  else OTHER` (returns `(transaction_category, is_sale)`). -/
def classifyTxn (t : RawTxn) : String × Bool :=
  if pyTruthyStr t.arms_length_code ∧ pyTruthyInt t.document_amount ∧
      0 < t.document_amount.getD 0 then ("SALE", true)
  else if t.document_amount = some 0 then ("MORTGAGE", false)
  else ("OTHER", false)

def mkFact (property_key_lookup : List (String × Nat)) (key : Nat)
    (t : RawTxn) : FactTxn :=
  let c := classifyTxn t
  let grantor_count := t.recorder_grantor_v2__recorder_id.length
  let grantee_count := t.recorder_grantee_v2__recorder_id.length
  { transaction_key := key
    recorder_id := t.recorder_id
    property_key :=
      if pyTruthyStr t.tax_assessor_id then
        dget property_key_lookup (t.tax_assessor_id.getD "")
      else none
    transaction_date := t.document_recorded_date
    document_amount := t.document_amount
    arms_length_flag := t.arms_length_code
    transaction_category := c.1
    is_sale := c.2
    tax_assessor_id := t.tax_assessor_id
    grantor_count := grantor_count
    grantee_count := grantee_count
    has_multiple_parties := grantor_count + grantee_count > 2 }

def factGo (property_key_lookup : List (String × Nat)) :
    List RawTxn → Nat → List FactTxn
  | [], _ => []
  | t :: rest, key => mkFact property_key_lookup key t ::
      factGo property_key_lookup rest (key + 1)

/-- `build_fact_transaction(transactions_raw, property_key_lookup)`:
returns the fact rows (surrogate keys counted from 1) and the
`recorder_id → transaction_key` lookup. -/
def build_fact_transaction (transactions_raw : List RawTxn)
    (property_key_lookup : List (String × Nat)) :
    List FactTxn × List (String × Nat) :=
  let facts := factGo property_key_lookup transactions_raw 1
  (facts, pyDict (facts.map (fun t => (t.recorder_id, t.transaction_key))))

/-! ## Property dimension builder (`src/transform/dim_property.py`) -/

/-- A current property attribute record from `tax_assessor_v2` (fields
used by the claims; the remaining fields are copied through unchanged). -/
structure PropertyRec where
  tax_assessor_id : String
  building_sq_ft : Option Int
  lot_size_sq_ft : Option Int
  assessed_value_total : Option Int
  market_value_total : Option Int
  property_use_standardized_code : Option String
deriving DecidableEq, Repr

/-- A historical snapshot record from `tax_assessor_history_v2`. -/
structure HistRec where
  tax_assessor_id : String
  assessor_snap_shot_year : Int
  cherre_tax_assessor_history_v2_pk : Option Int
  building_sq_ft : Option Int
  lot_size_sq_ft : Option Int
  assessed_value_total : Option Int
  market_value_total : Option Int
deriving DecidableEq, Repr

/-- A `dim_property` output row. `valid_from` / `valid_to` hold the year
`y` standing for the date string `"y-01-01"` built by the code (for the
four-digit snapshot years of this dataset, the ISO string order is the
numeric year order). -/
structure DimPropertyRow where
  property_key : Nat
  tax_assessor_id : String
  property_use_code : Option String
  building_sqft : Option Int
  land_sqft : Option Int
  assessed_value : Option Int
  market_value : Option Int
  valid_from : Int
  valid_to : Option Int
  is_current : Bool
deriving DecidableEq, Repr

/-- `x.get("cherre_tax_assessor_history_v2_pk", 0)`. -/
def pkOf (h : HistRec) : Int := h.cherre_tax_assessor_history_v2_pk.getD 0

/-- Python `max(recs, key=f)`: the first element achieving the maximal
key (ties keep the earliest), `none` on the empty list. -/
def pyMaxBy {α : Type} (f : α → Int) : List α → Option α
  | [] => none
  | x :: xs => some (xs.foldl (fun b a => if f b < f a then a else b) x)

/-- Deduplication of one property's history: group by snapshot year in
first-occurrence order and keep the record with the highest PK per year. -/
def dedupHist (recs : List HistRec) : List HistRec :=
  (dedupFirst (recs.map (fun h => h.assessor_snap_shot_year))).filterMap
    (fun y => pyMaxBy pkOf (recs.filter (fun h => h.assessor_snap_shot_year = y)))

def yearLE (a b : HistRec) : Prop :=
  a.assessor_snap_shot_year ≤ b.assessor_snap_shot_year

instance : DecidableRel yearLE := fun a b =>
  inferInstanceAs (Decidable (a.assessor_snap_shot_year ≤ b.assessor_snap_shot_year))

instance : IsTotal HistRec yearLE :=
  ⟨fun a b => le_total a.assessor_snap_shot_year b.assessor_snap_shot_year⟩

instance : IsTrans HistRec yearLE :=
  ⟨fun _ _ _ hab hbc => le_trans hab hbc⟩

/-- `sorted(history_by_property.get(tax_id, []), key=year)` after
deduplication: the deduplicated history of one property, ascending by
snapshot year. -/
def sortedHistories (property_history : List HistRec) (tax_id : String) :
    List HistRec :=
  List.insertionSort yearLE
    (dedupHist (property_history.filter (fun h => h.tax_assessor_id = tax_id)))

/-- The dimension row emitted for one history entry (`dim_property.py`
lines 72-97): numeric square-footage fields use `hist.get(k) or
prop.get(k)`; assessed/market value come from the history record only. -/
def histRow (prop : PropertyRec) (tax_id : String) (key : Nat) (h : HistRec)
    (valid_to : Option Int) (is_current : Bool) : DimPropertyRow :=
  { property_key := key
    tax_assessor_id := tax_id
    property_use_code := prop.property_use_standardized_code
    building_sqft := pyOrInt h.building_sq_ft prop.building_sq_ft
    land_sqft := pyOrInt h.lot_size_sq_ft prop.lot_size_sq_ft
    assessed_value := h.assessed_value_total
    market_value := h.market_value_total
    valid_from := h.assessor_snap_shot_year
    valid_to := valid_to
    is_current := is_current }

/-- The single current row emitted when a property has no history
(`dim_property.py` lines 101-126); `valid_from` is the fixed default
`"2025-01-01"`. -/
def currentRow (prop : PropertyRec) (tax_id : String) (key : Nat) :
    DimPropertyRow :=
  { property_key := key
    tax_assessor_id := tax_id
    property_use_code := prop.property_use_standardized_code
    building_sqft := prop.building_sq_ft
    land_sqft := prop.lot_size_sq_ft
    assessed_value := prop.assessed_value_total
    market_value := prop.market_value_total
    valid_from := 2025
    valid_to := none
    is_current := true }

/-- The SCD-2 rows for one property's (sorted, deduplicated) history:
`valid_to` is the next entry's year, the last entry is current with
`valid_to = null`. -/
def histRows (prop : PropertyRec) (tax_id : String) :
    Nat → List HistRec → List DimPropertyRow
  | _, [] => []
  | key, [h] => [histRow prop tax_id key h none true]
  | key, h :: h2 :: rest =>
      histRow prop tax_id key h (some h2.assessor_snap_shot_year) false ::
        histRows prop tax_id (key + 1) (h2 :: rest)

/-- The rows emitted for one `(tax_id, prop)` entry of the property
lookup (`if histories: ... else: ...`). -/
def propRows (key : Nat) (tax_id : String) (prop : PropertyRec)
    (property_history : List HistRec) : List DimPropertyRow :=
  let hs := sortedHistories property_history tax_id
  if hs.isEmpty then [currentRow prop tax_id key]
  else histRows prop tax_id key hs

/-- The main loop of `build_dim_property` over the property lookup, with
the surrogate-key counter threaded through. -/
def buildRows (property_history : List HistRec) :
    List (String × PropertyRec) → Nat → List DimPropertyRow
  | [], _ => []
  | (tax_id, prop) :: rest, key =>
      let rows := propRows key tax_id prop property_history
      rows ++ buildRows property_history rest (key + rows.length)

/-- `build_dim_property(properties, property_history)`: the dimension
rows and the `tax_assessor_id → property_key` lookup populated from
current rows. -/
def build_dim_property (properties : List PropertyRec)
    (property_history : List HistRec) :
    List DimPropertyRow × List (String × Nat) :=
  let property_lookup := pyDict (properties.map (fun p => (p.tax_assessor_id, p)))
  let rows := buildRows property_history property_lookup 1
  (rows,
    pyDict ((rows.filter (fun r => r.is_current)).map
      (fun r => (r.tax_assessor_id, r.property_key))))

/-! ## Entity dimension builder (`src/transform/dim_entity.py`) -/

/-- A raw owner record from `usa_owner_unmask_v2`. -/
structure EntityRaw where
  owner_id : Option String
  tax_assessor_id : Option String
  has_confidence : Bool
  occurrences_count : Option Int
  owner_name : Option String
  owner_type : Option String
  owner_state : Option String
  last_seen_date : Option String
  cherre_usa_owner_unmask_pk : Option Int
deriving DecidableEq, Repr

structure DimEntityRow where
  entity_key : Nat
  canonical_entity_id : String
  cherre_owner_pk : Option Int
  canonical_entity_name : Option String
  entity_type : Option String
  state : Option String
  confidence_score : Int
  occurrences_count : Option Int
  valid_to : Option String
  is_current : Bool
deriving DecidableEq, Repr

structure DimEntityIdentifierRow where
  identifier_key : Nat
  entity_key : Nat
  identifier_type : String
  identifier_value : String
  is_primary : Bool
  valid_to : Option String
  is_current : Bool
deriving DecidableEq, Repr

/-- Base 50 for the confidence flag plus the tiered occurrence bonus
(`occ = base.get("occurrences_count") or 0`). -/
def confidenceScore (base : EntityRaw) : Int :=
  (if base.has_confidence then 50 else 0) +
    (let occ := base.occurrences_count.getD 0
     if occ ≥ 10 then 50 else if occ ≥ 5 then 30
     else if occ ≥ 2 then 20 else 10)

/-- `(owner_id, record)` pairs for records with a truthy `owner_id`
(the grouping filter `if ent.get("owner_id")`). -/
def ownerIdPairs (entities_raw : List EntityRaw) : List (String × EntityRaw) :=
  entities_raw.filterMap (fun e =>
    match e.owner_id with
    | some s => if s = "" then none else some (s, e)
    | none => none)

/-- First pair per key, in first-occurrence key order: models grouping by
`defaultdict` followed by `base = ent_records[0]` (only the first record
of each group is ever used). -/
def dedupByKeyAux {K α : Type} [DecidableEq K] (seen : List K) :
    List (K × α) → List (K × α)
  | [] => []
  | (k, a) :: rest =>
    if k ∈ seen then dedupByKeyAux seen rest
    else (k, a) :: dedupByKeyAux (k :: seen) rest

/-- The `(owner_id, base)` groups of `build_dim_entity`, in
first-occurrence order. -/
def entityGroups (entities_raw : List EntityRaw) : List (String × EntityRaw) :=
  dedupByKeyAux [] (ownerIdPairs entities_raw)

/-- Python `s.split("::")` on the character list: greedy leftmost
non-overlapping split at each occurrence of the two-character separator
(structural recursion, so it computes in the kernel). -/
def splitOnColons : List Char → List (List Char)
  | [] => [[]]
  | ':' :: ':' :: rest => [] :: splitOnColons rest
  | c :: rest =>
    match splitOnColons rest with
    | [] => [[c]]
    | part :: parts => (c :: part) :: parts

/-- `owner_id.split("::")` from `dim_entity.py`. -/
def pySplitDoubleColon (s : String) : List String :=
  (splitOnColons s.toList).map List.asString

/-- The identifier rows emitted for one entity: the primary identifier
(the full `owner_id`) and, when `owner_id.split("::")[0]` is nonempty,
a secondary `owner_name` identifier for the first part. -/
def entityIdentRows (oid : String) (entity_key identifier_key : Nat)
    (vto : Option String) : List DimEntityIdentifierRow :=
  let prim : DimEntityIdentifierRow :=
    { identifier_key := identifier_key
      entity_key := entity_key
      identifier_type := "cherre_owner_id"
      identifier_value := oid
      is_primary := true
      valid_to := vto
      is_current := true }
  let parts := pySplitDoubleColon oid
  if parts.headD "" ≠ "" then
    [prim,
     { identifier_key := identifier_key + 1
       entity_key := entity_key
       identifier_type := "owner_name"
       identifier_value := parts.headD ""
       is_primary := false
       valid_to := vto
       is_current := true }]
  else [prim]

/-- The main loop of `build_dim_entity` over the groups, threading the
entity-key and identifier-key counters. -/
def entityGo : List (String × EntityRaw) → Nat → Nat →
    List DimEntityRow × List DimEntityIdentifierRow
  | [], _, _ => ([], [])
  | (oid, base) :: rest, ek, ik =>
      let e : DimEntityRow :=
        { entity_key := ek
          canonical_entity_id := oid
          cherre_owner_pk := base.cherre_usa_owner_unmask_pk
          canonical_entity_name := base.owner_name
          entity_type := base.owner_type
          state := base.owner_state
          confidence_score := confidenceScore base
          occurrences_count := base.occurrences_count
          valid_to := base.last_seen_date
          is_current := true }
      let ids := entityIdentRows oid ek ik base.last_seen_date
      let next := entityGo rest (ek + 1) (ik + ids.length)
      (e :: next.1, ids ++ next.2)

/-- `build_dim_entity(entities_raw)`: the entity rows, the identifier
rows, and the `owner_id → entity_key` lookup. -/
def build_dim_entity (entities_raw : List EntityRaw) :
    List DimEntityRow × List DimEntityIdentifierRow × List (String × Nat) :=
  let out := entityGo (entityGroups entities_raw) 1 1
  (out.1, out.2,
    pyDict (out.1.map (fun e => (e.canonical_entity_id, e.entity_key))))

/-! ## Property-owner bridge builder (`src/transform/bridges.py`) -/

/-- A `bridge_property_owner` output row (`valid_from` holds the year of
the fixed date string `"2025-01-01"`; the constant-null
`ownership_percentage` / `ownership_type` fields are omitted). -/
structure BridgePropertyOwnerRow where
  bridge_key : Nat
  property_key : Nat
  entity_key : Nat
  ownership_sequence : Nat
  valid_from : Int
  valid_to : Option String
  is_current : Bool
  is_derived : Bool
deriving DecidableEq, Repr

/-- `entity_key = entity_key_lookup.get(owner["owner_id"]); if not
entity_key: continue` — resolution fails on a missing key and on the
falsy value `0`. -/
def resolveEntity (entity_key_lookup : List (String × Nat)) (o : EntityRaw) :
    Option Nat :=
  match dget entity_key_lookup (o.owner_id.getD "") with
  | some ek => if ek = 0 then none else some ek
  | none => none

/-- `property_key = property_key_lookup.get(tax_id); if not property_key:
continue`. -/
def resolveProperty (property_key_lookup : List (String × Nat))
    (tax_id : String) : Option Nat :=
  match dget property_key_lookup tax_id with
  | some pk => if pk = 0 then none else some pk
  | none => none

/-- `(tax_assessor_id, record)` pairs for records where both
`tax_assessor_id` and `owner_id` are truthy. -/
def propertyOwnerPairs (entities_raw : List EntityRaw) :
    List (String × EntityRaw) :=
  entities_raw.filterMap (fun e =>
    if pyTruthyStr e.tax_assessor_id && pyTruthyStr e.owner_id then
      some (e.tax_assessor_id.getD "", e)
    else none)

/-- Full `defaultdict` grouping: keys in first-occurrence order, each
group in input order. -/
def groupsOf {K α : Type} [DecidableEq K] (pairs : List (K × α)) :
    List (K × List α) :=
  (dedupFirst (pairs.map Prod.fst)).map
    (fun k => (k, (pairs.filter (fun p => p.1 = k)).map Prod.snd))

def owners_by_property (entities_raw : List EntityRaw) :
    List (String × List EntityRaw) :=
  groupsOf (propertyOwnerPairs entities_raw)

/-- `for seq, owner in enumerate(owners, 1)`: the sequence counter
advances for every owner; the bridge-key counter advances only on emit.
Returns the rows and the next bridge key. -/
def ownerSeqRows (entity_key_lookup : List (String × Nat)) (pk : Nat) :
    List EntityRaw → Nat → Nat → List BridgePropertyOwnerRow × Nat
  | [], _, bk => ([], bk)
  | o :: rest, seq, bk =>
      match resolveEntity entity_key_lookup o with
      | some ek =>
          let row : BridgePropertyOwnerRow :=
            { bridge_key := bk
              property_key := pk
              entity_key := ek
              ownership_sequence := seq
              valid_from := 2025
              valid_to := o.last_seen_date
              is_current := true
              is_derived := false }
          let next := ownerSeqRows entity_key_lookup pk rest (seq + 1) (bk + 1)
          (row :: next.1, next.2)
      | none => ownerSeqRows entity_key_lookup pk rest (seq + 1) bk

def bridgeGo (property_key_lookup entity_key_lookup : List (String × Nat)) :
    List (String × List EntityRaw) → Nat → List BridgePropertyOwnerRow
  | [], _ => []
  | (tax_id, owners) :: rest, bk =>
      match resolveProperty property_key_lookup tax_id with
      | some pk =>
          let r := ownerSeqRows entity_key_lookup pk owners 1 bk
          r.1 ++ bridgeGo property_key_lookup entity_key_lookup rest r.2
      | none => bridgeGo property_key_lookup entity_key_lookup rest bk

/-- `build_bridge_property_owner(entities_raw, property_key_lookup,
entity_key_lookup)`. -/
def build_bridge_property_owner (entities_raw : List EntityRaw)
    (property_key_lookup entity_key_lookup : List (String × Nat)) :
    List BridgePropertyOwnerRow :=
  bridgeGo property_key_lookup entity_key_lookup
    (owners_by_property entities_raw) 1

/-! ## Concrete fixtures used by witnesses and counterexamples -/

def pwProp : PropertyRec :=
  { tax_assessor_id := "PW", building_sq_ft := some 800,
    lot_size_sq_ft := none, assessed_value_total := some 100,
    market_value_total := none, property_use_standardized_code := none }

/-- An owner record whose natural key is NOT a composite of
`::`-separated parts. -/
def acmeRaw : EntityRaw :=
  { owner_id := some "ACME", tax_assessor_id := none,
    has_confidence := false, occurrences_count := none,
    owner_name := some "ACME", owner_type := none, owner_state := none,
    last_seen_date := none, cherre_usa_owner_unmask_pk := none }

/-- An owner record with a composite `::`-separated natural key. -/
def compRaw : EntityRaw :=
  { owner_id := some "ACME LLC::C::NY::1 MAIN ST", tax_assessor_id := none,
    has_confidence := true, occurrences_count := some 3,
    owner_name := some "ACME LLC", owner_type := some "C",
    owner_state := some "NY", last_seen_date := some "2025-06-01",
    cherre_usa_owner_unmask_pk := some 9 }

/-- The entity-dimension row `build_dim_entity [compRaw]` produces
(confidence 50 for the flag + 20 for the occurrence tier). -/
def compDimRow : DimEntityRow :=
  { entity_key := 1, canonical_entity_id := "ACME LLC::C::NY::1 MAIN ST",
    cherre_owner_pk := some 9, canonical_entity_name := some "ACME LLC",
    entity_type := some "C", state := some "NY", confidence_score := 70,
    occurrences_count := some 3, valid_to := some "2025-06-01",
    is_current := true }

def p1Prop : PropertyRec :=
  { tax_assessor_id := "P1", building_sq_ft := none, lot_size_sq_ft := none,
    assessed_value_total := none, market_value_total := none,
    property_use_standardized_code := some "1104" }

def o1Raw : EntityRaw :=
  { owner_id := some "O1", tax_assessor_id := some "P1",
    has_confidence := false, occurrences_count := none,
    owner_name := some "O1", owner_type := none, owner_state := none,
    last_seen_date := none, cherre_usa_owner_unmask_pk := none }

def o2Raw : EntityRaw :=
  { owner_id := some "O2", tax_assessor_id := some "P1",
    has_confidence := false, occurrences_count := none,
    owner_name := some "O2", owner_type := none, owner_state := none,
    last_seen_date := none, cherre_usa_owner_unmask_pk := none }

/-- The bridge row `build_bridge_property_owner [o1Raw] ...` produces
when `[p1Prop]` / `[o1Raw]` feed the two dimension builds. -/
def bridgeRowW : BridgePropertyOwnerRow :=
  { bridge_key := 1, property_key := 1, entity_key := 1,
    ownership_sequence := 1, valid_from := 2025, valid_to := none,
    is_current := true, is_derived := false }

/-! ### Lemmas about the dict model -/

theorem mem_dictSet {K V : Type} [DecidableEq K] (d : List (K × V))
    (k : K) (v : V) (p : K × V) (hp : p ∈ dictSet d k v) :
    p ∈ d ∨ p = (k, v) := by
  unfold dictSet at hp
  split at hp
  · rcases List.mem_map.mp hp with ⟨q, hq, hqe⟩
    by_cases hqk : q.1 = k
    · right
      simp only [hqk, if_true] at hqe
      exact hqe.symm
    · left
      simp only [hqk, if_false] at hqe
      exact hqe ▸ hq
  · simp only [List.mem_append, List.mem_singleton] at hp
    exact hp

theorem mem_pyDictFrom {K V : Type} [DecidableEq K] (d : List (K × V))
    (l : List (K × V)) (p : K × V) (hp : p ∈ pyDictFrom d l) :
    p ∈ d ∨ p ∈ l := by
  induction l generalizing d with
  | nil => exact Or.inl hp
  | cons q rest ih =>
    simp only [pyDictFrom] at hp
    rcases ih (dictSet d q.1 q.2) hp with h | h
    · rcases mem_dictSet d q.1 q.2 p h with h' | h'
      · exact Or.inl h'
      · exact Or.inr (by simp [h'])
    · exact Or.inr (List.mem_cons_of_mem _ h)

theorem mem_pyDict {K V : Type} [DecidableEq K] (l : List (K × V))
    (p : K × V) (hp : p ∈ pyDict l) : p ∈ l := by
  rcases mem_pyDictFrom [] l p hp with h | h
  · simp at h
  · exact h

/-- `dget` is the head of the filtered entries (first match wins, as for
Python dicts where a key occurs once). -/
theorem dget_eq_head_filter {K V : Type} [DecidableEq K] (l : List (K × V))
    (k : K) :
    dget l k = ((l.filter (fun p => p.1 = k)).head?).map (fun p => p.2) := by
  induction l with
  | nil => rfl
  | cons p rest ih =>
    by_cases hp : p.1 = k
    · simp [dget, List.find?_cons_of_pos, List.filter_cons_of_pos, hp]
    · rw [dget] at ih ⊢
      rw [List.find?_cons_of_neg _ (by simpa using hp),
        List.filter_cons_of_neg (by simpa using hp)]
      exact ih

theorem dictSet_of_not_memKey {K V : Type} [DecidableEq K] (d : List (K × V))
    (k : K) (v : V) (h : k ∉ d.map Prod.fst) : dictSet d k v = d ++ [(k, v)] := by
  unfold dictSet
  rw [if_neg]
  intro hsome
  rw [List.find?_isSome] at hsome
  obtain ⟨p, hp, hpk⟩ := hsome
  exact h (List.mem_map.mpr ⟨p, hp, by simpa using hpk⟩)

theorem pyDictFrom_eq_append {K V : Type} [DecidableEq K] (l : List (K × V)) :
    ∀ d : List (K × V), ((d ++ l).map Prod.fst).Nodup → pyDictFrom d l = d ++ l := by
  induction l with
  | nil =>
    intro d _
    simp [pyDictFrom]
  | cons p rest ih =>
    intro d h
    obtain ⟨k, v⟩ := p
    have hflat : (d.map Prod.fst ++ k :: rest.map Prod.fst).Nodup := by
      simpa using h
    rcases List.nodup_append.mp hflat with ⟨_, _, hdisj⟩
    have hk : k ∉ d.map Prod.fst := by
      intro hmem
      exact hdisj hmem (by simp)
    have happ : d ++ (k, v) :: rest = (d ++ [(k, v)]) ++ rest := by
      simp
    rw [pyDictFrom, dictSet_of_not_memKey d k v hk, happ]
    apply ih
    rw [← happ]
    exact h

/-- A Python dict built from entries with pairwise-distinct keys is that
entry list itself. -/
theorem pyDict_eq_self {K V : Type} [DecidableEq K] (l : List (K × V))
    (h : (l.map Prod.fst).Nodup) : pyDict l = l := by
  have := pyDictFrom_eq_append l [] (by simpa using h)
  simpa [pyDict] using this

theorem dget_mem {K V : Type} [DecidableEq K] (d : List (K × V)) (k : K)
    (v : V) (h : dget d k = some v) : (k, v) ∈ d := by
  unfold dget at h
  rcases Option.map_eq_some'.mp h with ⟨p, hfind, hv⟩
  have hmem := List.mem_of_find?_eq_some hfind
  have hk := List.find?_some hfind
  have hk' : p.1 = k := by simpa using hk
  have : p = (k, v) := by
    cases p
    simp only at hk' hv
    simp [hk', hv]
  exact this ▸ hmem

/-! ## Theorems -/

theorem dqStatus_pass_iff (pct : ℚ) (threshold : Int) :
    dqStatus pct threshold = "PASS" ↔ (threshold : ℚ) ≤ pct := by
  unfold dqStatus
  by_cases h1 : pct ≥ (threshold : ℚ)
  · rw [if_pos h1]
    exact ⟨fun _ => h1, fun _ => rfl⟩
  · rw [if_neg h1]
    constructor
    · intro h
      by_cases h2 : pct ≥ ((threshold - 15 : Int) : ℚ)
      · rw [if_pos h2] at h
        exact absurd h (by decide)
      · rw [if_neg h2] at h
        exact absurd h (by decide)
    · intro h
      exact absurd h h1

theorem dqStatus_warn_iff (pct : ℚ) (threshold : Int) :
    dqStatus pct threshold = "WARN" ↔
      ((threshold : ℚ) - 15 ≤ pct ∧ pct < (threshold : ℚ)) := by
  unfold dqStatus
  have hcast : ((threshold - 15 : Int) : ℚ) = (threshold : ℚ) - 15 := by
    push_cast
    ring
  by_cases h1 : pct ≥ (threshold : ℚ)
  · rw [if_pos h1]
    constructor
    · intro h
      exact absurd h (by decide)
    · intro h
      exact absurd h1 (not_le.mpr h.2)
  · rw [if_neg h1]
    by_cases h2 : pct ≥ ((threshold - 15 : Int) : ℚ)
    · rw [if_pos h2]
      rw [hcast] at h2
      exact ⟨fun _ => ⟨h2, not_le.mp h1⟩, fun _ => rfl⟩
    · rw [if_neg h2]
      rw [hcast] at h2
      constructor
      · intro h
        exact absurd h (by decide)
      · intro h
        exact absurd h.1 h2

theorem dqStatus_fail_iff (pct : ℚ) (threshold : Int) :
    dqStatus pct threshold = "FAIL" ↔ pct < (threshold : ℚ) - 15 := by
  unfold dqStatus
  have hcast : ((threshold - 15 : Int) : ℚ) = (threshold : ℚ) - 15 := by
    push_cast
    ring
  by_cases h1 : pct ≥ (threshold : ℚ)
  · rw [if_pos h1]
    constructor
    · intro h
      exact absurd h (by decide)
    · intro h
      have h15 : (threshold : ℚ) - 15 ≤ (threshold : ℚ) := by linarith
      exact absurd h1 (not_le.mpr (lt_of_lt_of_le h h15))
  · rw [if_neg h1]
    by_cases h2 : pct ≥ ((threshold - 15 : Int) : ℚ)
    · rw [if_pos h2]
      rw [hcast] at h2
      constructor
      · intro h
        exact absurd h (by decide)
      · intro h
        exact absurd h2 (not_le.mpr h)
    · rw [if_neg h2]
      rw [hcast] at h2
      exact ⟨fun _ => not_le.mp h2, fun _ => rfl⟩

/-- C1: for a check recorded by `dq_check` with `total > 0`, the recorded
percentage is `passed / total * 100`, and the recorded status is PASS iff
the percentage is at least the threshold, WARN iff it lies in
`[threshold - 15, threshold)`, and FAIL iff it is below `threshold - 15`.
(The scenario `passed=94, total=100, threshold=95 → WARN` is the witness.) -/
theorem dq_check_classification (report : DQReport)
    (category check_name message : String) (passed total : Nat)
    (threshold : Int) (ht : 0 < total) :
    ∃ c : DQCheckRec,
      (dq_check report category check_name passed total message
        threshold).checks.getLast? = some c ∧
      c.percentage = (passed : ℚ) / (total : ℚ) * 100 ∧
      (c.status = "PASS" ↔ (threshold : ℚ) ≤ c.percentage) ∧
      (c.status = "WARN" ↔
        ((threshold : ℚ) - 15 ≤ c.percentage ∧ c.percentage < (threshold : ℚ))) ∧
      (c.status = "FAIL" ↔ c.percentage < (threshold : ℚ) - 15) := by
  have hpct : dqPct passed total = (passed : ℚ) / (total : ℚ) * 100 := by
    simp [dqPct, ht]
  refine ⟨{ category := category, check := check_name,
            status := dqStatus (dqPct passed total) threshold,
            passed := passed, total := total,
            percentage := dqPct passed total, message := message },
    ?_, ?_, ?_, ?_, ?_⟩
  · simp [dq_check]
  · exact hpct
  · exact dqStatus_pass_iff _ _
  · exact dqStatus_warn_iff _ _
  · exact dqStatus_fail_iff _ _

theorem dq_check_classification_witness :
    ∃ c : DQCheckRec,
      (dq_check ⟨[], []⟩ "BUSINESS_LOGIC" "sample check" 94 100 ""
        95).checks.getLast? = some c ∧ c.status = "WARN" := by
  obtain ⟨c, hlast, hpct, _, hwarn, _⟩ :=
    dq_check_classification ⟨[], []⟩ "BUSINESS_LOGIC" "sample check" ""
      94 100 95 (by norm_num)
  refine ⟨c, hlast, hwarn.mpr ?_⟩
  rw [hpct]
  norm_num

/-- C10: `dq_check` with `total = 0` records a percentage of `0` (no
division is performed), and that check is classified FAIL for every
threshold greater than 15 (in particular the default threshold 100,
which is the witness). -/
theorem dq_check_zero_total (report : DQReport)
    (category check_name message : String) (passed : Nat) (threshold : Int)
    (ht : 15 < threshold) :
    ∃ c : DQCheckRec,
      (dq_check report category check_name passed 0 message
        threshold).checks.getLast? = some c ∧
      c.percentage = 0 ∧ c.status = "FAIL" := by
  have hpct : dqPct passed 0 = 0 := by
    simp [dqPct]
  refine ⟨{ category := category, check := check_name,
            status := dqStatus (dqPct passed 0) threshold,
            passed := passed, total := 0,
            percentage := dqPct passed 0, message := message },
    ?_, hpct, ?_⟩
  · simp [dq_check]
  rw [dqStatus_fail_iff, hpct]
  have : (15 : ℚ) < (threshold : ℚ) := by
    exact_mod_cast ht
  linarith

theorem dq_check_zero_total_witness :
    ∃ c : DQCheckRec,
      (dq_check ⟨[], []⟩ "UNIQUENESS" "sample check" 7 0 ""
        100).checks.getLast? = some c ∧
      c.percentage = 0 ∧ c.status = "FAIL" :=
  dq_check_zero_total ⟨[], []⟩ "UNIQUENESS" "sample check" "" 7 100
    (by norm_num)

/-! ### Fact-builder lemmas (C2) -/

/-- The code's three-way guard, rephrased: a truthy arms-length code and a
monetary amount that is present and positive. -/
theorem saleCond_iff (t : RawTxn) :
    (pyTruthyStr t.arms_length_code = true ∧ pyTruthyInt t.document_amount = true ∧
      0 < t.document_amount.getD 0) ↔
    (pyTruthyStr t.arms_length_code = true ∧
      ∃ a : Int, t.document_amount = some a ∧ 0 < a) := by
  cases hd : t.document_amount with
  | none => simp [pyTruthyInt]
  | some a =>
    simp only [pyTruthyInt, Option.getD_some, Option.some_inj]
    constructor
    · rintro ⟨h1, _, h3⟩
      exact ⟨h1, a, rfl, h3⟩
    · rintro ⟨h1, a2, ha2, hpos⟩
      subst ha2
      exact ⟨h1, by simpa using (ne_of_gt hpos), hpos⟩

theorem classify_sale_iff (t : RawTxn) :
    (classifyTxn t).1 = "SALE" ↔
      (pyTruthyStr t.arms_length_code = true ∧
        ∃ a : Int, t.document_amount = some a ∧ 0 < a) := by
  rw [← saleCond_iff]
  unfold classifyTxn
  by_cases h : (pyTruthyStr t.arms_length_code = true ∧
      pyTruthyInt t.document_amount = true ∧ 0 < t.document_amount.getD 0)
  · rw [if_pos h]
    exact ⟨fun _ => h, fun _ => rfl⟩
  · rw [if_neg h]
    by_cases h0 : t.document_amount = some 0
    · rw [if_pos h0]
      exact ⟨fun hc => absurd hc (by decide), fun hc => absurd hc h⟩
    · rw [if_neg h0]
      exact ⟨fun hc => absurd hc (by decide), fun hc => absurd hc h⟩

theorem classify_mortgage_iff (t : RawTxn) :
    (classifyTxn t).1 = "MORTGAGE" ↔
      (¬(pyTruthyStr t.arms_length_code = true ∧
          ∃ a : Int, t.document_amount = some a ∧ 0 < a) ∧
        t.document_amount = some 0) := by
  rw [← saleCond_iff]
  unfold classifyTxn
  by_cases h : (pyTruthyStr t.arms_length_code = true ∧
      pyTruthyInt t.document_amount = true ∧ 0 < t.document_amount.getD 0)
  · rw [if_pos h]
    exact ⟨fun hc => absurd hc (by decide), fun hc => absurd h hc.1⟩
  · rw [if_neg h]
    by_cases h0 : t.document_amount = some 0
    · rw [if_pos h0]
      exact ⟨fun _ => ⟨h, h0⟩, fun _ => rfl⟩
    · rw [if_neg h0]
      exact ⟨fun hc => absurd hc (by decide), fun hc => absurd hc.2 h0⟩

theorem classify_other_iff (t : RawTxn) :
    (classifyTxn t).1 = "OTHER" ↔
      (¬(pyTruthyStr t.arms_length_code = true ∧
          ∃ a : Int, t.document_amount = some a ∧ 0 < a) ∧
        ¬(t.document_amount = some 0)) := by
  rw [← saleCond_iff]
  unfold classifyTxn
  by_cases h : (pyTruthyStr t.arms_length_code = true ∧
      pyTruthyInt t.document_amount = true ∧ 0 < t.document_amount.getD 0)
  · rw [if_pos h]
    exact ⟨fun hc => absurd hc (by decide), fun hc => absurd h hc.1⟩
  · rw [if_neg h]
    by_cases h0 : t.document_amount = some 0
    · rw [if_pos h0]
      exact ⟨fun hc => absurd hc (by decide), fun hc => absurd h0 hc.2⟩
    · rw [if_neg h0]
      exact ⟨fun _ => ⟨h, h0⟩, fun _ => rfl⟩

theorem classify_is_sale_iff (t : RawTxn) :
    (classifyTxn t).2 = true ↔ (classifyTxn t).1 = "SALE" := by
  unfold classifyTxn
  by_cases h : (pyTruthyStr t.arms_length_code = true ∧
      pyTruthyInt t.document_amount = true ∧ 0 < t.document_amount.getD 0)
  · rw [if_pos h]
    exact ⟨fun _ => rfl, fun _ => rfl⟩
  · rw [if_neg h]
    by_cases h0 : t.document_amount = some 0
    · rw [if_pos h0]
      exact ⟨fun hc => absurd hc (by decide), fun hc => absurd hc (by decide)⟩
    · rw [if_neg h0]
      exact ⟨fun hc => absurd hc (by decide), fun hc => absurd hc (by decide)⟩

theorem factGo_getElem? (property_key_lookup : List (String × Nat)) :
    ∀ (l : List RawTxn) (k i : Nat),
      (factGo property_key_lookup l k)[i]? =
        (l[i]?).map (fun t => mkFact property_key_lookup (k + i) t) := by
  intro l
  induction l with
  | nil =>
    intro k i
    simp [factGo]
  | cons t rest ih =>
    intro k i
    cases i with
    | zero => simp [factGo]
    | succ j =>
      simp only [factGo, List.getElem?_cons_succ]
      rw [ih (k + 1) j]
      have harith : k + 1 + j = k + (j + 1) := by omega
      rw [harith]

/-- C2: the fact row built for the `i`-th input transaction is classified
SALE exactly when the arms-length indicator is truthy and a positive
monetary amount is present, MORTGAGE exactly when it is not a SALE and the
amount is exactly zero, OTHER otherwise; and `is_sale` holds iff the
category is SALE. -/
theorem build_fact_transaction_classification
    (transactions_raw : List RawTxn)
    (property_key_lookup : List (String × Nat)) (i : Nat) (t : RawTxn)
    (hi : transactions_raw[i]? = some t) :
    ∃ f : FactTxn,
      (build_fact_transaction transactions_raw property_key_lookup).1[i]? =
        some f ∧
      (f.transaction_category = "SALE" ↔
        (pyTruthyStr t.arms_length_code = true ∧
          ∃ a : Int, t.document_amount = some a ∧ 0 < a)) ∧
      (f.transaction_category = "MORTGAGE" ↔
        (¬(pyTruthyStr t.arms_length_code = true ∧
            ∃ a : Int, t.document_amount = some a ∧ 0 < a) ∧
          t.document_amount = some 0)) ∧
      (f.transaction_category = "OTHER" ↔
        (¬(pyTruthyStr t.arms_length_code = true ∧
            ∃ a : Int, t.document_amount = some a ∧ 0 < a) ∧
          ¬(t.document_amount = some 0))) ∧
      (f.is_sale = true ↔ f.transaction_category = "SALE") := by
  refine ⟨mkFact property_key_lookup (1 + i) t, ?_, ?_, ?_, ?_, ?_⟩
  · show (factGo property_key_lookup transactions_raw 1)[i]? = _
    rw [factGo_getElem? property_key_lookup transactions_raw 1 i, hi]
    rfl
  · exact classify_sale_iff t
  · exact classify_mortgage_iff t
  · exact classify_other_iff t
  · exact classify_is_sale_iff t

theorem build_fact_transaction_classification_witness :
    (∃ f : FactTxn,
      (build_fact_transaction
        [{ recorder_id := "R1", tax_assessor_id := none,
           document_recorded_date := none, document_amount := some 0,
           arms_length_code := none,
           recorder_grantor_v2__recorder_id := [],
           recorder_grantee_v2__recorder_id := [] }] []).1[0]? = some f ∧
      f.transaction_category = "MORTGAGE" ∧ f.is_sale = false) ∧
    (∃ f : FactTxn,
      (build_fact_transaction
        [{ recorder_id := "R2", tax_assessor_id := none,
           document_recorded_date := none, document_amount := some 500000,
           arms_length_code := some "Y",
           recorder_grantor_v2__recorder_id := [],
           recorder_grantee_v2__recorder_id := [] }] []).1[0]? = some f ∧
      f.transaction_category = "SALE" ∧ f.is_sale = true) := by
  constructor
  · obtain ⟨f, hf, _, hm, _, hs⟩ :=
      build_fact_transaction_classification
        [{ recorder_id := "R1", tax_assessor_id := none,
           document_recorded_date := none, document_amount := some 0,
           arms_length_code := none,
           recorder_grantor_v2__recorder_id := [],
           recorder_grantee_v2__recorder_id := [] }] [] 0 _ rfl
    have hcat : f.transaction_category = "MORTGAGE" := by
      apply hm.mpr
      refine ⟨?_, rfl⟩
      rintro ⟨h1, _⟩
      simp [pyTruthyStr] at h1
    refine ⟨f, hf, hcat, ?_⟩
    cases hb : f.is_sale with
    | false => rfl
    | true =>
      have := hs.mp hb
      rw [hcat] at this
      exact absurd this (by decide)
  · obtain ⟨f, hf, hsale, _, _, hs⟩ :=
      build_fact_transaction_classification
        [{ recorder_id := "R2", tax_assessor_id := none,
           document_recorded_date := none, document_amount := some 500000,
           arms_length_code := some "Y",
           recorder_grantor_v2__recorder_id := [],
           recorder_grantee_v2__recorder_id := [] }] [] 0 _ rfl
    have hcat : f.transaction_category = "SALE" := by
      apply hsale.mpr
      exact ⟨by decide, 500000, rfl, by norm_num⟩
    exact ⟨f, hf, hcat, hs.mpr hcat⟩

/-! ### Raw-flattener lemmas (C5) -/

theorem extract_length (transactions : List RawTxn) :
    (extract_from_transactions transactions).length =
      (transactions.map
        (fun x => x.recorder_grantor_v2__recorder_id.length)).sum := by
  induction transactions with
  | nil => rfl
  | cons t rest ih =>
    simp [extract_from_transactions, grantorRowsOf, ih]

theorem grantorRowsOf_sub_extract (transactions : List RawTxn) (t : RawTxn)
    (ht : t ∈ transactions) :
    ∀ r ∈ grantorRowsOf t, r ∈ extract_from_transactions transactions := by
  induction transactions with
  | nil => exact absurd ht (List.not_mem_nil t)
  | cons u rest ih =>
    intro r hr
    rcases List.mem_cons.mp ht with h | h
    · subst h
      exact List.mem_append_left _ hr
    · exact List.mem_append_right _ (ih h r hr)

/-- C5: flattening preserves cardinalities. `flatten_for_load` emits one
record per input transaction; the record for the `i`-th transaction
carries `grantor_count = N` and `grantee_count = M` where `N`/`M` are the
embedded party-list lengths; `extract_from_transactions` yields
`N` grantor rows for that transaction (its block `grantorRowsOf t`), each
carrying the parent's `recorder_id`, and in total one row per embedded
grantor across all transactions. -/
theorem flatten_extract_cardinalities (transactions : List RawTxn)
    (i : Nat) (t : RawTxn) (hi : transactions[i]? = some t) :
    (flatten_for_load transactions).length = transactions.length ∧
    (flatten_for_load transactions)[i]? = some (flattenOne t) ∧
    (flattenOne t).grantor_count =
      t.recorder_grantor_v2__recorder_id.length ∧
    (flattenOne t).grantee_count =
      t.recorder_grantee_v2__recorder_id.length ∧
    (extract_from_transactions transactions).length =
      (transactions.map
        (fun x => x.recorder_grantor_v2__recorder_id.length)).sum ∧
    (grantorRowsOf t).length = t.recorder_grantor_v2__recorder_id.length ∧
    (∀ r ∈ grantorRowsOf t, r.recorder_id = t.recorder_id) ∧
    (∀ r ∈ grantorRowsOf t, r ∈ extract_from_transactions transactions) := by
  refine ⟨?_, ?_, rfl, rfl, extract_length transactions, ?_, ?_, ?_⟩
  · simp [flatten_for_load]
  · rw [flatten_for_load, List.getElem?_map, hi]
    rfl
  · simp [grantorRowsOf]
  · intro r hr
    rcases List.mem_map.mp hr with ⟨g, _, hge⟩
    rw [← hge]
    rfl
  · exact grantorRowsOf_sub_extract transactions t
      (by
        have := List.getElem?_eq_some.mp hi
        obtain ⟨h, he⟩ := this
        exact he ▸ List.getElem_mem h)

theorem flatten_extract_cardinalities_witness :
    (flatten_for_load
      [{ recorder_id := "R1", tax_assessor_id := none,
         document_recorded_date := none, document_amount := none,
         arms_length_code := none,
         recorder_grantor_v2__recorder_id :=
           [{ cherre_recorder_grantor_pk := some 1,
              grantor_name := some "A", grantor_address := none,
              grantor_entity_code := none, grantor_first_name := none,
              grantor_last_name := none },
            { cherre_recorder_grantor_pk := some 2,
              grantor_name := some "B", grantor_address := none,
              grantor_entity_code := none, grantor_first_name := none,
              grantor_last_name := none }],
         recorder_grantee_v2__recorder_id := [] },
       { recorder_id := "R2", tax_assessor_id := none,
         document_recorded_date := none, document_amount := none,
         arms_length_code := none,
         recorder_grantor_v2__recorder_id := [],
         recorder_grantee_v2__recorder_id := [] }]).length = 2 ∧
    (∃ ft : FlatTxn,
      (flatten_for_load
        [{ recorder_id := "R1", tax_assessor_id := none,
           document_recorded_date := none, document_amount := none,
           arms_length_code := none,
           recorder_grantor_v2__recorder_id :=
             [{ cherre_recorder_grantor_pk := some 1,
                grantor_name := some "A", grantor_address := none,
                grantor_entity_code := none, grantor_first_name := none,
                grantor_last_name := none },
              { cherre_recorder_grantor_pk := some 2,
                grantor_name := some "B", grantor_address := none,
                grantor_entity_code := none, grantor_first_name := none,
                grantor_last_name := none }],
           recorder_grantee_v2__recorder_id := [] },
         { recorder_id := "R2", tax_assessor_id := none,
           document_recorded_date := none, document_amount := none,
           arms_length_code := none,
           recorder_grantor_v2__recorder_id := [],
           recorder_grantee_v2__recorder_id := [] }])[1]? = some ft ∧
      ft.grantor_count = 0) := by
  obtain ⟨hlen, hget, hgc, _, _, _, _, _⟩ :=
    flatten_extract_cardinalities
      [{ recorder_id := "R1", tax_assessor_id := none,
         document_recorded_date := none, document_amount := none,
         arms_length_code := none,
         recorder_grantor_v2__recorder_id :=
           [{ cherre_recorder_grantor_pk := some 1,
              grantor_name := some "A", grantor_address := none,
              grantor_entity_code := none, grantor_first_name := none,
              grantor_last_name := none },
            { cherre_recorder_grantor_pk := some 2,
              grantor_name := some "B", grantor_address := none,
              grantor_entity_code := none, grantor_first_name := none,
              grantor_last_name := none }],
         recorder_grantee_v2__recorder_id := [] },
       { recorder_id := "R2", tax_assessor_id := none,
         document_recorded_date := none, document_amount := none,
         arms_length_code := none,
         recorder_grantor_v2__recorder_id := [],
         recorder_grantee_v2__recorder_id := [] }] 1 _ rfl
  exact ⟨hlen, _, hget, hgc⟩

/-! ### Deduplication and sorting lemmas (C3, C4, C6) -/

theorem dedupFirstAux_mem {K : Type} [DecidableEq K] :
    ∀ (l : List K) (seen : List K) (x : K),
      x ∈ dedupFirstAux seen l → x ∈ l ∧ x ∉ seen := by
  intro l
  induction l with
  | nil =>
    intro seen x hx
    simp [dedupFirstAux] at hx
  | cons k rest ih =>
    intro seen x hx
    rw [dedupFirstAux] at hx
    by_cases hk : k ∈ seen
    · rw [if_pos hk] at hx
      obtain ⟨h1, h2⟩ := ih seen x hx
      exact ⟨List.mem_cons_of_mem _ h1, h2⟩
    · rw [if_neg hk] at hx
      rcases List.mem_cons.mp hx with h | h
      · subst h
        exact ⟨List.mem_cons_self _ _, hk⟩
      · obtain ⟨h1, h2⟩ := ih (k :: seen) x h
        exact ⟨List.mem_cons_of_mem _ h1,
          fun hc => h2 (List.mem_cons_of_mem _ hc)⟩

theorem dedupFirstAux_nodup {K : Type} [DecidableEq K] :
    ∀ (l : List K) (seen : List K), (dedupFirstAux seen l).Nodup := by
  intro l
  induction l with
  | nil =>
    intro seen
    simp [dedupFirstAux]
  | cons k rest ih =>
    intro seen
    rw [dedupFirstAux]
    by_cases hk : k ∈ seen
    · rw [if_pos hk]
      exact ih seen
    · rw [if_neg hk]
      refine List.nodup_cons.mpr ⟨?_, ih (k :: seen)⟩
      intro hc
      obtain ⟨_, h2⟩ := dedupFirstAux_mem rest (k :: seen) k hc
      exact h2 (List.mem_cons_self _ _)

theorem dedupFirst_nodup {K : Type} [DecidableEq K] (l : List K) :
    (dedupFirst l).Nodup :=
  dedupFirstAux_nodup l []

theorem dedupFirst_mem {K : Type} [DecidableEq K] (l : List K) (x : K)
    (h : x ∈ dedupFirst l) : x ∈ l :=
  (dedupFirstAux_mem l [] x h).1

theorem foldl_pymax_mem {α : Type} (f : α → Int) :
    ∀ (as : List α) (a : α),
      (as.foldl (fun b x => if f b < f x then x else b) a) ∈ a :: as := by
  intro as
  induction as with
  | nil =>
    intro a
    simp
  | cons x xs ih =>
    intro a
    rw [List.foldl_cons]
    by_cases h : f a < f x
    · rw [if_pos h]
      exact List.mem_cons_of_mem _ (ih x)
    · rw [if_neg h]
      rcases List.mem_cons.mp (ih a) with h1 | h1
      · rw [h1]
        exact List.mem_cons_self _ _
      · exact List.mem_cons_of_mem _ (List.mem_cons_of_mem _ h1)

theorem pyMaxBy_mem {α : Type} (f : α → Int) (l : List α) (x : α)
    (h : pyMaxBy f l = some x) : x ∈ l := by
  cases l with
  | nil => simp [pyMaxBy] at h
  | cons a as =>
    rw [pyMaxBy, Option.some_inj] at h
    exact h ▸ foldl_pymax_mem f as a

theorem pyMaxBy_isSome {α : Type} (f : α → Int) (l : List α) (h : l ≠ []) :
    ∃ x, pyMaxBy f l = some x := by
  cases l with
  | nil => exact absurd rfl h
  | cons a as => exact ⟨_, rfl⟩

theorem dedupHist_mem (recs : List HistRec) (h : HistRec)
    (hmem : h ∈ dedupHist recs) : h ∈ recs := by
  unfold dedupHist at hmem
  rcases List.mem_filterMap.mp hmem with ⟨y, _, hy⟩
  have := pyMaxBy_mem pkOf _ h hy
  exact (List.mem_filter.mp this).1

theorem filterMap_map_eq_self {β γ : Type} (g : γ → Option β) (f : β → γ) :
    ∀ ys : List γ, (∀ y ∈ ys, ∃ x, g y = some x ∧ f x = y) →
      (ys.filterMap g).map f = ys := by
  intro ys
  induction ys with
  | nil =>
    intro _
    rfl
  | cons y rest ih =>
    intro hall
    obtain ⟨x, hx, hfx⟩ := hall y (List.mem_cons_self _ _)
    rw [List.filterMap_cons, hx, List.map_cons, hfx,
      ih (fun z hz => hall z (List.mem_cons_of_mem _ hz))]

theorem dedupHist_years (recs : List HistRec) :
    (dedupHist recs).map (fun h => h.assessor_snap_shot_year) =
      dedupFirst (recs.map (fun h => h.assessor_snap_shot_year)) := by
  unfold dedupHist
  apply filterMap_map_eq_self
  intro y hy
  have hy2 : y ∈ recs.map (fun h => h.assessor_snap_shot_year) :=
    dedupFirst_mem _ y hy
  rcases List.mem_map.mp hy2 with ⟨r, hr, hry⟩
  have hne : recs.filter (fun h => h.assessor_snap_shot_year = y) ≠ [] := by
    intro hnil
    have : r ∈ recs.filter (fun h => h.assessor_snap_shot_year = y) :=
      List.mem_filter.mpr ⟨hr, by simp [hry]⟩
    rw [hnil] at this
    exact absurd this (List.not_mem_nil r)
  obtain ⟨x, hx⟩ := pyMaxBy_isSome pkOf _ hne
  refine ⟨x, hx, ?_⟩
  have := pyMaxBy_mem pkOf _ x hx
  have := (List.mem_filter.mp this).2
  simpa using this

theorem mem_sortedHistories (property_history : List HistRec) (tax_id : String)
    (h : HistRec) (hmem : h ∈ sortedHistories property_history tax_id) :
    h ∈ property_history ∧ h.tax_assessor_id = tax_id := by
  unfold sortedHistories at hmem
  have hperm := List.perm_insertionSort yearLE
    (dedupHist (property_history.filter (fun x => x.tax_assessor_id = tax_id)))
  have h2 := hperm.mem_iff.mp hmem
  have h3 := dedupHist_mem _ h h2
  have h4 := List.mem_filter.mp h3
  exact ⟨h4.1, by simpa using h4.2⟩

theorem sortedHistories_strict (property_history : List HistRec)
    (tax_id : String) :
    List.Pairwise
      (fun a b : HistRec =>
        a.assessor_snap_shot_year < b.assessor_snap_shot_year)
      (sortedHistories property_history tax_id) := by
  unfold sortedHistories
  have hsorted := List.sorted_insertionSort yearLE
    (dedupHist (property_history.filter (fun x => x.tax_assessor_id = tax_id)))
  have hperm := List.perm_insertionSort yearLE
    (dedupHist (property_history.filter (fun x => x.tax_assessor_id = tax_id)))
  have hnodup_l :
      ((dedupHist (property_history.filter
        (fun x => x.tax_assessor_id = tax_id))).map
          (fun h => h.assessor_snap_shot_year)).Nodup := by
    rw [dedupHist_years]
    exact dedupFirst_nodup _
  have hnodup :
      ((List.insertionSort yearLE
        (dedupHist (property_history.filter
          (fun x => x.tax_assessor_id = tax_id)))).map
            (fun h => h.assessor_snap_shot_year)).Nodup :=
    ((hperm.map _).nodup_iff).mpr hnodup_l
  have hpair_ne := List.pairwise_map.mp hnodup
  have hpair_le : List.Pairwise yearLE _ := hsorted
  exact (hpair_le.and hpair_ne).imp
    (fun hab => lt_of_le_of_ne hab.1 hab.2)

/-! ### `histRows` structure lemmas -/

theorem histRows_tax (prop : PropertyRec) (tax_id : String) :
    ∀ (hs : List HistRec) (key : Nat) (r : DimPropertyRow),
      r ∈ histRows prop tax_id key hs → r.tax_assessor_id = tax_id := by
  intro hs
  induction hs with
  | nil =>
    intro key r hr
    simp [histRows] at hr
  | cons h rest ih =>
    cases rest with
    | nil =>
      intro key r hr
      rw [histRows] at hr
      rcases List.mem_singleton.mp hr with h
      subst h
      rfl
    | cons h2 rest2 =>
      intro key r hr
      rw [histRows] at hr
      rcases List.mem_cons.mp hr with h | h
      · subst h
        rfl
      · exact ih (key + 1) r h

theorem histRows_map_validFrom (prop : PropertyRec) (tax_id : String) :
    ∀ (hs : List HistRec) (key : Nat),
      (histRows prop tax_id key hs).map (fun r => r.valid_from) =
        hs.map (fun h => h.assessor_snap_shot_year) := by
  intro hs
  induction hs with
  | nil =>
    intro key
    rfl
  | cons h rest ih =>
    cases rest with
    | nil =>
      intro key
      rfl
    | cons h2 rest2 =>
      intro key
      rw [histRows, List.map_cons, ih (key + 1)]
      rfl

theorem histRows_head_validFrom (prop : PropertyRec) (tax_id : String)
    (key : Nat) (h : HistRec) (hs : List HistRec) :
    (histRows prop tax_id key (h :: hs)).head?.map (fun r => r.valid_from) =
      some h.assessor_snap_shot_year := by
  cases hs with
  | nil => rfl
  | cons h2 rest2 => rfl

theorem histRows_chain (prop : PropertyRec) (tax_id : String) :
    ∀ (hs : List HistRec) (key : Nat),
      List.Chain' (fun a b : DimPropertyRow => a.valid_to = some b.valid_from)
        (histRows prop tax_id key hs) := by
  intro hs
  induction hs with
  | nil =>
    intro key
    simp [histRows]
  | cons h rest ih =>
    cases rest with
    | nil =>
      intro key
      simp [histRows]
    | cons h2 rest2 =>
      intro key
      rw [histRows]
      apply List.chain'_cons'.mpr
      refine ⟨?_, ih (key + 1)⟩
      intro b hb
      have hhead := histRows_head_validFrom prop tax_id (key + 1) h2 rest2
      rw [hb] at hhead
      simp only [Option.map_some', Option.some_inj] at hhead
      show (histRow prop tax_id key h (some h2.assessor_snap_shot_year)
        false).valid_to = some b.valid_from
      rw [show (histRow prop tax_id key h (some h2.assessor_snap_shot_year)
        false).valid_to = some h2.assessor_snap_shot_year from rfl, hhead]

theorem histRows_getLast (prop : PropertyRec) (tax_id : String) :
    ∀ (hs : List HistRec) (key : Nat), hs ≠ [] →
      ∃ r, (histRows prop tax_id key hs).getLast? = some r ∧
        r.valid_to = none ∧ r.is_current = true := by
  intro hs
  induction hs with
  | nil =>
    intro key hne
    exact absurd rfl hne
  | cons h rest ih =>
    cases rest with
    | nil =>
      intro key _
      exact ⟨histRow prop tax_id key h none true, rfl, rfl, rfl⟩
    | cons h2 rest2 =>
      intro key _
      obtain ⟨r, hr, hvt, hc⟩ := ih (key + 1) (by simp)
      refine ⟨r, ?_, hvt, hc⟩
      rw [histRows, List.getLast?_cons, hr]
      cases hrw : histRows prop tax_id (key + 1) (h2 :: rest2) with
      | nil =>
        rw [hrw] at hr
        simp at hr
      | cons a as =>
        rw [hrw] at hr
        simp [hr]

theorem histRows_ne_nil (prop : PropertyRec) (tax_id : String)
    (hs : List HistRec) (key : Nat) (hne : hs ≠ []) :
    histRows prop tax_id key hs ≠ [] := by
  cases hs with
  | nil => exact absurd rfl hne
  | cons h rest =>
    cases rest with
    | nil => simp [histRows]
    | cons h2 rest2 => simp [histRows]

theorem histRows_filter_current (prop : PropertyRec) (tax_id : String) :
    ∀ (hs : List HistRec) (key : Nat), hs ≠ [] →
      ∃ r, (histRows prop tax_id key hs).filter
          (fun x => x.is_current) = [r] ∧
        r.valid_to = none ∧ r.is_current = true := by
  intro hs
  induction hs with
  | nil =>
    intro key hne
    exact absurd rfl hne
  | cons h rest ih =>
    cases rest with
    | nil =>
      intro key _
      exact ⟨histRow prop tax_id key h none true, rfl, rfl, rfl⟩
    | cons h2 rest2 =>
      intro key _
      obtain ⟨r, hr, hvt, hc⟩ := ih (key + 1) (by simp)
      refine ⟨r, ?_, hvt, hc⟩
      rw [histRows, List.filter_cons]
      have hfalse : (histRow prop tax_id key h
          (some h2.assessor_snap_shot_year) false).is_current = false := rfl
      rw [hfalse]
      simpa using hr

theorem histRows_mem_decomp (prop : PropertyRec) (tax_id : String) :
    ∀ (hs : List HistRec) (key : Nat) (r : DimPropertyRow),
      r ∈ histRows prop tax_id key hs →
      ∃ h key2 vto cur, h ∈ hs ∧ r = histRow prop tax_id key2 h vto cur := by
  intro hs
  induction hs with
  | nil =>
    intro key r hr
    simp [histRows] at hr
  | cons h rest ih =>
    cases rest with
    | nil =>
      intro key r hr
      rcases List.mem_singleton.mp hr with h
      exact ⟨_, key, none, true, List.mem_cons_self _ _, h⟩
    | cons h2 rest2 =>
      intro key r hr
      rcases List.mem_cons.mp hr with hcase | hcase
      · exact ⟨h, key, some h2.assessor_snap_shot_year, false,
          List.mem_cons_self _ _, hcase⟩
      · obtain ⟨h3, key2, vto, cur, hmem, heq⟩ := ih (key + 1) r hcase
        exact ⟨h3, key2, vto, cur, List.mem_cons_of_mem _ hmem, heq⟩

/-! ### `propRows` and `buildRows` lemmas -/

theorem propRows_tax (property_history : List HistRec) (key : Nat)
    (tax_id : String) (prop : PropertyRec) (r : DimPropertyRow)
    (hr : r ∈ propRows key tax_id prop property_history) :
    r.tax_assessor_id = tax_id := by
  unfold propRows at hr
  by_cases he : (sortedHistories property_history tax_id).isEmpty
  · rw [if_pos he] at hr
    rcases List.mem_singleton.mp hr with h
    subst h
    rfl
  · rw [if_neg he] at hr
    exact histRows_tax prop tax_id _ key r hr

theorem sortedHistories_ne_nil_of_not_isEmpty (property_history : List HistRec)
    (tax_id : String)
    (he : ¬(sortedHistories property_history tax_id).isEmpty = true) :
    sortedHistories property_history tax_id ≠ [] := by
  intro hnil
  apply he
  rw [hnil]
  rfl

theorem propRows_filter_current (property_history : List HistRec) (key : Nat)
    (tax_id : String) (prop : PropertyRec) :
    ∃ r, (propRows key tax_id prop property_history).filter
        (fun x => x.is_current) = [r] ∧
      r.valid_to = none ∧ r.is_current = true := by
  unfold propRows
  by_cases he : (sortedHistories property_history tax_id).isEmpty
  · rw [if_pos he]
    exact ⟨currentRow prop tax_id key, rfl, rfl, rfl⟩
  · rw [if_neg he]
    exact histRows_filter_current prop tax_id _ key
      (sortedHistories_ne_nil_of_not_isEmpty property_history tax_id he)

theorem propRows_chain (property_history : List HistRec) (key : Nat)
    (tax_id : String) (prop : PropertyRec) :
    List.Chain' (fun a b : DimPropertyRow => a.valid_to = some b.valid_from)
      (propRows key tax_id prop property_history) := by
  unfold propRows
  by_cases he : (sortedHistories property_history tax_id).isEmpty
  · rw [if_pos he]
    simp
  · rw [if_neg he]
    exact histRows_chain prop tax_id _ key

theorem propRows_pairwise (property_history : List HistRec) (key : Nat)
    (tax_id : String) (prop : PropertyRec) :
    List.Pairwise
      (fun a b : DimPropertyRow => a.valid_from < b.valid_from)
      (propRows key tax_id prop property_history) := by
  unfold propRows
  by_cases he : (sortedHistories property_history tax_id).isEmpty
  · rw [if_pos he]
    simp
  · rw [if_neg he]
    have hstrict := sortedHistories_strict property_history tax_id
    have hmap := histRows_map_validFrom prop tax_id
      (sortedHistories property_history tax_id) key
    have h1 : List.Pairwise (fun a b : Int => a < b)
        ((histRows prop tax_id key
          (sortedHistories property_history tax_id)).map
            (fun r => r.valid_from)) := by
      rw [hmap]
      exact List.pairwise_map.mpr hstrict
    exact List.pairwise_map.mp h1

theorem propRows_getLast (property_history : List HistRec) (key : Nat)
    (tax_id : String) (prop : PropertyRec) :
    ∃ r, (propRows key tax_id prop property_history).getLast? = some r ∧
      r.valid_to = none := by
  unfold propRows
  by_cases he : (sortedHistories property_history tax_id).isEmpty
  · rw [if_pos he]
    exact ⟨currentRow prop tax_id key, rfl, rfl⟩
  · rw [if_neg he]
    obtain ⟨r, h1, h2, _⟩ := histRows_getLast prop tax_id _ key
      (sortedHistories_ne_nil_of_not_isEmpty property_history tax_id he)
    exact ⟨r, h1, h2⟩

theorem propRows_mem_decomp (property_history : List HistRec) (key : Nat)
    (tax_id : String) (prop : PropertyRec) (r : DimPropertyRow)
    (hr : r ∈ propRows key tax_id prop property_history) :
    (∃ key2, r = currentRow prop tax_id key2) ∨
    (∃ h key2 vto cur, h ∈ sortedHistories property_history tax_id ∧
      r = histRow prop tax_id key2 h vto cur) := by
  unfold propRows at hr
  by_cases he : (sortedHistories property_history tax_id).isEmpty
  · rw [if_pos he] at hr
    rcases List.mem_singleton.mp hr with h
    exact Or.inl ⟨key, h⟩
  · rw [if_neg he] at hr
    exact Or.inr (histRows_mem_decomp prop tax_id _ key r hr)

theorem buildRows_mem (property_history : List HistRec) :
    ∀ (entries : List (String × PropertyRec)) (key : Nat)
      (r : DimPropertyRow), r ∈ buildRows property_history entries key →
      ∃ tax_id prop key2, (tax_id, prop) ∈ entries ∧
        r ∈ propRows key2 tax_id prop property_history := by
  intro entries
  induction entries with
  | nil =>
    intro key r hr
    simp [buildRows] at hr
  | cons e rest ih =>
    obtain ⟨tax_id, p⟩ := e
    intro key r hr
    simp only [buildRows] at hr
    rcases List.mem_append.mp hr with h | h
    · exact ⟨tax_id, p, key, List.mem_cons_self _ _, h⟩
    · obtain ⟨t2, p2, k2, hmem, hpr⟩ := ih _ r h
      exact ⟨t2, p2, k2, List.mem_cons_of_mem _ hmem, hpr⟩

theorem buildRows_tax_mem (property_history : List HistRec)
    (entries : List (String × PropertyRec)) (key : Nat)
    (r : DimPropertyRow) (hr : r ∈ buildRows property_history entries key) :
    r.tax_assessor_id ∈ entries.map Prod.fst := by
  obtain ⟨tax_id, prop, key2, hmem, hpr⟩ :=
    buildRows_mem property_history entries key r hr
  rw [propRows_tax property_history key2 tax_id prop r hpr]
  exact List.mem_map.mpr ⟨(tax_id, prop), hmem, rfl⟩

theorem buildRows_filter_key (property_history : List HistRec) :
    ∀ (entries : List (String × PropertyRec)) (key : Nat) (k : String)
      (prop : PropertyRec), (entries.map Prod.fst).Nodup →
      (k, prop) ∈ entries →
      ∃ key2, (buildRows property_history entries key).filter
          (fun r => r.tax_assessor_id = k) =
        propRows key2 k prop property_history := by
  intro entries
  induction entries with
  | nil =>
    intro key k prop _ hmem
    simp at hmem
  | cons e rest ih =>
    obtain ⟨tax_id, p⟩ := e
    intro key k prop hnodup hmem
    have hnodup2 : (tax_id :: rest.map Prod.fst).Nodup := by
      simpa using hnodup
    have hnd := List.nodup_cons.mp hnodup2
    simp only [buildRows]
    rw [List.filter_append]
    rcases List.mem_cons.mp hmem with heq | hmem2
    · have hk : k = tax_id := congrArg Prod.fst heq
      have hp : prop = p := congrArg Prod.snd heq
      subst hk
      subst hp
      refine ⟨key, ?_⟩
      have hself : (propRows key k prop property_history).filter
          (fun r => r.tax_assessor_id = k) =
          propRows key k prop property_history := by
        apply List.filter_eq_self.mpr
        intro r hr
        simp [propRows_tax property_history key k prop r hr]
      have hnil : (buildRows property_history rest
          (key + (propRows key k prop property_history).length)).filter
          (fun r => r.tax_assessor_id = k) = [] := by
        apply List.filter_eq_nil_iff.mpr
        intro r hr
        have := buildRows_tax_mem property_history rest _ r hr
        simp only [decide_eq_true_eq]
        intro hc
        rw [hc] at this
        exact hnd.1 this
      rw [hself, hnil, List.append_nil]
    · have hkmem : k ∈ rest.map Prod.fst :=
        List.mem_map.mpr ⟨(k, prop), hmem2, rfl⟩
      have hkne : k ≠ tax_id := by
        intro hc
        rw [hc] at hkmem
        exact hnd.1 hkmem
      have hnil : (propRows key tax_id p property_history).filter
          (fun r => r.tax_assessor_id = k) = [] := by
        apply List.filter_eq_nil_iff.mpr
        intro r hr
        simp only [decide_eq_true_eq]
        rw [propRows_tax property_history key tax_id p r hr]
        exact fun hc => hkne hc.symm
      obtain ⟨key2, h2⟩ := ih _ k prop hnd.2 hmem2
      rw [hnil, List.nil_append]
      exact ⟨key2, h2⟩

theorem buildRows_current_tax (property_history : List HistRec) :
    ∀ (entries : List (String × PropertyRec)) (key : Nat),
      ((buildRows property_history entries key).filter
        (fun r => r.is_current)).map (fun r => r.tax_assessor_id) =
      entries.map Prod.fst := by
  intro entries
  induction entries with
  | nil =>
    intro key
    rfl
  | cons e rest ih =>
    obtain ⟨tax_id, p⟩ := e
    intro key
    simp only [buildRows]
    rw [List.filter_append, List.map_append]
    obtain ⟨r, hr, _, _⟩ :=
      propRows_filter_current property_history key tax_id p
    have hrtax : r.tax_assessor_id = tax_id := by
      apply propRows_tax property_history key tax_id p r
      apply List.mem_of_mem_filter (p := fun x => x.is_current)
      rw [hr]
      exact List.mem_singleton.mpr rfl
    rw [hr, ih _]
    simp [hrtax]

/-! ### Nodup keys of `pyDict` -/

theorem nodup_keys_dictSet {K V : Type} [DecidableEq K] (d : List (K × V))
    (k : K) (v : V) (h : (d.map Prod.fst).Nodup) :
    ((dictSet d k v).map Prod.fst).Nodup := by
  unfold dictSet
  by_cases hf : (d.find? (fun p => p.1 = k)).isSome
  · rw [if_pos hf, List.map_map]
    have hmap : d.map (Prod.fst ∘ fun p => if p.1 = k then (k, v) else p) =
        d.map Prod.fst := by
      apply List.map_congr_left
      intro a _
      by_cases ha : a.1 = k
      · simp [ha]
      · simp [ha]
    rw [hmap]
    exact h
  · rw [if_neg hf, List.map_append]
    have hk : k ∉ d.map Prod.fst := by
      intro hc
      rcases List.mem_map.mp hc with ⟨p, hp, hpk⟩
      apply hf
      rw [List.find?_isSome]
      exact ⟨p, hp, by simp [hpk]⟩
    refine List.nodup_append.mpr ⟨h, List.nodup_singleton k, ?_⟩
    intro a ha hb
    rcases List.mem_singleton.mp hb with hab
    subst hab
    exact hk ha

theorem nodup_keys_pyDictFrom {K V : Type} [DecidableEq K] :
    ∀ (l d : List (K × V)), (d.map Prod.fst).Nodup →
      ((pyDictFrom d l).map Prod.fst).Nodup := by
  intro l
  induction l with
  | nil =>
    intro d h
    exact h
  | cons p rest ih =>
    intro d h
    exact ih (dictSet d p.1 p.2) (nodup_keys_dictSet d p.1 p.2 h)

theorem nodup_keys_pyDict {K V : Type} [DecidableEq K] (l : List (K × V)) :
    ((pyDict l).map Prod.fst).Nodup :=
  nodup_keys_pyDictFrom l [] (by simp)

theorem filter_swap {α : Type} (p q : α → Bool) (l : List α) :
    (l.filter p).filter q = (l.filter q).filter p := by
  induction l with
  | nil => rfl
  | cons a rest ih =>
    by_cases hp : p a = true
    · by_cases hq : q a = true
      · rw [List.filter_cons, List.filter_cons, hp, hq]
        simp only [if_true]
        rw [List.filter_cons, List.filter_cons, hp, hq]
        simp only [if_true, ih]
      · have hq2 : q a = false := by
          cases hqa : q a with
          | true => exact absurd hqa hq
          | false => rfl
        rw [List.filter_cons, List.filter_cons, hp, hq2]
        simp only [if_true, Bool.false_eq_true, if_false]
        rw [List.filter_cons, hq2]
        simp only [Bool.false_eq_true, if_false, ih]
    · have hp2 : p a = false := by
        cases hpa : p a with
        | true => exact absurd hpa hp
        | false => rfl
      by_cases hq : q a = true
      · rw [List.filter_cons, List.filter_cons, hp2, hq]
        simp only [Bool.false_eq_true, if_false, if_true]
        rw [List.filter_cons, hp2]
        simp only [Bool.false_eq_true, if_false, ih]
      · have hq2 : q a = false := by
          cases hqa : q a with
          | true => exact absurd hqa hq
          | false => rfl
        rw [List.filter_cons, List.filter_cons, hp2, hq2]
        simp only [Bool.false_eq_true, if_false, ih]

/-- C3: for every natural key `k` present in the `dim_property` output,
exactly one row for that key is current, that row's `valid_to` is null,
and the returned lookup maps `k` to that row's surrogate key. -/
theorem build_dim_property_unique_current (properties : List PropertyRec)
    (property_history : List HistRec) (k : String) (row0 : DimPropertyRow)
    (hrow0 : row0 ∈ (build_dim_property properties property_history).1)
    (hk : row0.tax_assessor_id = k) :
    ∃ r : DimPropertyRow,
      (((build_dim_property properties property_history).1.filter
        (fun x => x.tax_assessor_id = k)).filter
          (fun x => x.is_current)) = [r] ∧
      r.is_current = true ∧ r.valid_to = none ∧
      dget (build_dim_property properties property_history).2 k =
        some r.property_key := by
  have hnodup : ((pyDict (properties.map
      (fun p => (p.tax_assessor_id, p)))).map Prod.fst).Nodup :=
    nodup_keys_pyDict _
  have hrows : (build_dim_property properties property_history).1 =
      buildRows property_history
        (pyDict (properties.map (fun p => (p.tax_assessor_id, p)))) 1 := rfl
  have hkmem : k ∈ (pyDict (properties.map
      (fun p => (p.tax_assessor_id, p)))).map Prod.fst := by
    rw [← hk]
    exact buildRows_tax_mem property_history _ 1 row0 (hrows ▸ hrow0)
  obtain ⟨pr, hpr, hprk⟩ := List.mem_map.mp hkmem
  obtain ⟨tax0, prop⟩ := pr
  have hprk2 : tax0 = k := hprk
  subst hprk2
  obtain ⟨key2, hfilter⟩ := buildRows_filter_key property_history _ 1 tax0
    prop hnodup hpr
  obtain ⟨r, hr, hvt, hc⟩ :=
    propRows_filter_current property_history key2 tax0 prop
  refine ⟨r, ?_, hc, hvt, ?_⟩
  · rw [hrows, hfilter, hr]
  · have hlook : (build_dim_property properties property_history).2 =
        pyDict (((buildRows property_history
          (pyDict (properties.map (fun p => (p.tax_assessor_id, p)))) 1).filter
            (fun x => x.is_current)).map
              (fun x => (x.tax_assessor_id, x.property_key))) := rfl
    have hkeys : (((buildRows property_history
        (pyDict (properties.map (fun p => (p.tax_assessor_id, p)))) 1).filter
          (fun x => x.is_current)).map
            (fun x => (x.tax_assessor_id, x.property_key))).map Prod.fst =
        (pyDict (properties.map (fun p => (p.tax_assessor_id, p)))).map
          Prod.fst := by
      rw [List.map_map]
      exact buildRows_current_tax property_history _ 1
    have hpairs_nodup := hkeys ▸ hnodup
    rw [hlook, pyDict_eq_self _ hpairs_nodup, dget_eq_head_filter,
      List.filter_map]
    have hstep : ((buildRows property_history
        (pyDict (properties.map (fun p => (p.tax_assessor_id, p)))) 1).filter
          (fun x : DimPropertyRow => x.is_current)).filter
            ((fun p : String × Nat => decide (p.1 = tax0)) ∘
              (fun x : DimPropertyRow =>
                (x.tax_assessor_id, x.property_key))) = [r] := by
      have hpred : ((fun p : String × Nat => decide (p.1 = tax0)) ∘
          (fun x : DimPropertyRow =>
            (x.tax_assessor_id, x.property_key))) =
          (fun x : DimPropertyRow => decide (x.tax_assessor_id = tax0)) := rfl
      rw [hpred, filter_swap, hfilter, hr]
    rw [hstep]
    rfl

theorem build_dim_property_unique_current_witness :
    ∃ r : DimPropertyRow,
      (((build_dim_property
        [{ tax_assessor_id := "P1", building_sq_ft := none,
           lot_size_sq_ft := none, assessed_value_total := some 100,
           market_value_total := none,
           property_use_standardized_code := some "1104" }] []).1.filter
          (fun x => x.tax_assessor_id = "P1")).filter
            (fun x => x.is_current)) = [r] ∧
      r.is_current = true ∧ r.valid_to = none ∧
      dget (build_dim_property
        [{ tax_assessor_id := "P1", building_sq_ft := none,
           lot_size_sq_ft := none, assessed_value_total := some 100,
           market_value_total := none,
           property_use_standardized_code := some "1104" }] []).2 "P1" =
        some r.property_key :=
  build_dim_property_unique_current
    [{ tax_assessor_id := "P1", building_sq_ft := none,
       lot_size_sq_ft := none, assessed_value_total := some 100,
       market_value_total := none,
       property_use_standardized_code := some "1104" }] [] "P1"
    (currentRow
      { tax_assessor_id := "P1", building_sq_ft := none,
        lot_size_sq_ft := none, assessed_value_total := some 100,
        market_value_total := none,
        property_use_standardized_code := some "1104" } "P1" 1)
    (by decide) (by decide)

/-- C4: the `dim_property` rows sharing a natural key, in output order
(which the second conjunct shows is exactly ascending `valid_from` order),
form chained validity windows: each row's `valid_to` equals the next
row's `valid_from`, and the last row's `valid_to` is null. -/
theorem build_dim_property_scd2_windows (properties : List PropertyRec)
    (property_history : List HistRec) (k : String) :
    List.Chain' (fun a b : DimPropertyRow => a.valid_to = some b.valid_from)
      ((build_dim_property properties property_history).1.filter
        (fun x => x.tax_assessor_id = k)) ∧
    List.Pairwise (fun a b : DimPropertyRow => a.valid_from < b.valid_from)
      ((build_dim_property properties property_history).1.filter
        (fun x => x.tax_assessor_id = k)) ∧
    (∀ r : DimPropertyRow,
      ((build_dim_property properties property_history).1.filter
        (fun x => x.tax_assessor_id = k)).getLast? = some r →
      r.valid_to = none) := by
  have hrows : (build_dim_property properties property_history).1 =
      buildRows property_history
        (pyDict (properties.map (fun p => (p.tax_assessor_id, p)))) 1 := rfl
  rw [hrows]
  by_cases hkmem : k ∈ (pyDict (properties.map
      (fun p => (p.tax_assessor_id, p)))).map Prod.fst
  · obtain ⟨pr, hpr, hprk⟩ := List.mem_map.mp hkmem
    obtain ⟨tax0, prop⟩ := pr
    have hprk2 : tax0 = k := hprk
    subst hprk2
    obtain ⟨key2, hfilter⟩ := buildRows_filter_key property_history _ 1 tax0
      prop (nodup_keys_pyDict _) hpr
    rw [hfilter]
    refine ⟨propRows_chain property_history key2 tax0 prop,
      propRows_pairwise property_history key2 tax0 prop, ?_⟩
    obtain ⟨r0, hlast, hvt⟩ :=
      propRows_getLast property_history key2 tax0 prop
    intro r hr
    rw [hlast] at hr
    have : r0 = r := Option.some_inj.mp hr
    rw [← this]
    exact hvt
  · have hnil : (buildRows property_history
        (pyDict (properties.map (fun p => (p.tax_assessor_id, p)))) 1).filter
          (fun x => x.tax_assessor_id = k) = [] := by
      apply List.filter_eq_nil_iff.mpr
      intro r hr
      simp only [decide_eq_true_eq]
      intro hc
      exact hkmem (hc ▸ buildRows_tax_mem property_history _ 1 r hr)
    rw [hnil]
    refine ⟨List.chain'_nil, List.Pairwise.nil, ?_⟩
    intro r hr
    simp at hr

theorem build_dim_property_scd2_windows_witness :
    List.Chain' (fun a b : DimPropertyRow => a.valid_to = some b.valid_from)
      ((build_dim_property
        [{ tax_assessor_id := "P1", building_sq_ft := none,
           lot_size_sq_ft := none, assessed_value_total := none,
           market_value_total := none,
           property_use_standardized_code := some "1104" }]
        [{ tax_assessor_id := "P1", assessor_snap_shot_year := 2022,
           cherre_tax_assessor_history_v2_pk := some 1,
           building_sq_ft := none, lot_size_sq_ft := none,
           assessed_value_total := some 100, market_value_total := none },
         { tax_assessor_id := "P1", assessor_snap_shot_year := 2023,
           cherre_tax_assessor_history_v2_pk := some 2,
           building_sq_ft := none, lot_size_sq_ft := none,
           assessed_value_total := some 120,
           market_value_total := none }]).1.filter
        (fun x => x.tax_assessor_id = "P1")) ∧
    (∃ r : DimPropertyRow,
      ((build_dim_property
        [{ tax_assessor_id := "P1", building_sq_ft := none,
           lot_size_sq_ft := none, assessed_value_total := none,
           market_value_total := none,
           property_use_standardized_code := some "1104" }]
        [{ tax_assessor_id := "P1", assessor_snap_shot_year := 2022,
           cherre_tax_assessor_history_v2_pk := some 1,
           building_sq_ft := none, lot_size_sq_ft := none,
           assessed_value_total := some 100, market_value_total := none },
         { tax_assessor_id := "P1", assessor_snap_shot_year := 2023,
           cherre_tax_assessor_history_v2_pk := some 2,
           building_sq_ft := none, lot_size_sq_ft := none,
           assessed_value_total := some 120,
           market_value_total := none }]).1.filter
        (fun x => x.tax_assessor_id = "P1")).getLast? = some r ∧
      r.valid_to = none) := by
  obtain ⟨hchain, _, hlast⟩ := build_dim_property_scd2_windows
    [{ tax_assessor_id := "P1", building_sq_ft := none,
       lot_size_sq_ft := none, assessed_value_total := none,
       market_value_total := none,
       property_use_standardized_code := some "1104" }]
    [{ tax_assessor_id := "P1", assessor_snap_shot_year := 2022,
       cherre_tax_assessor_history_v2_pk := some 1,
       building_sq_ft := none, lot_size_sq_ft := none,
       assessed_value_total := some 100, market_value_total := none },
     { tax_assessor_id := "P1", assessor_snap_shot_year := 2023,
       cherre_tax_assessor_history_v2_pk := some 2,
       building_sq_ft := none, lot_size_sq_ft := none,
       assessed_value_total := some 120, market_value_total := none }] "P1"
  refine ⟨hchain, ?_⟩
  cases hg : ((build_dim_property
      [{ tax_assessor_id := "P1", building_sq_ft := none,
         lot_size_sq_ft := none, assessed_value_total := none,
         market_value_total := none,
         property_use_standardized_code := some "1104" }]
      [{ tax_assessor_id := "P1", assessor_snap_shot_year := 2022,
         cherre_tax_assessor_history_v2_pk := some 1,
         building_sq_ft := none, lot_size_sq_ft := none,
         assessed_value_total := some 100, market_value_total := none },
       { tax_assessor_id := "P1", assessor_snap_shot_year := 2023,
         cherre_tax_assessor_history_v2_pk := some 2,
         building_sq_ft := none, lot_size_sq_ft := none,
         assessed_value_total := some 120,
         market_value_total := none }]).1.filter
      (fun x => x.tax_assessor_id = "P1")).getLast? with
  | none => exact absurd hg (by decide)
  | some r => exact ⟨r, rfl, hlast r hg⟩

/-- C6 counterexample: with a history record lacking
`assessed_value_total` while the current attribute record carries
`some 500`, the emitted history-derived row's `assessed_value` is `none`
— the assessed value does NOT fall back to the current attribute record
(the claim would require `some 500`). -/
theorem build_dim_property_assessed_no_fallback :
    ((build_dim_property
      [{ tax_assessor_id := "P1", building_sq_ft := none,
         lot_size_sq_ft := none, assessed_value_total := some 500,
         market_value_total := none,
         property_use_standardized_code := none }]
      [{ tax_assessor_id := "P1", assessor_snap_shot_year := 2022,
         cherre_tax_assessor_history_v2_pk := some 1,
         building_sq_ft := none, lot_size_sq_ft := none,
         assessed_value_total := none,
         market_value_total := none }]).1.map
        (fun r => r.assessed_value)) = [none] ∧
    (some (500 : Int) : Option Int) ≠ none := by
  exact ⟨by decide, by decide⟩

/-- C6 (amended): every `dim_property` output row is either
history-derived — its assessed/market value comes from the matching
history record alone (null when absent there, no fallback), while its
square-footage fields use the history value when truthy and otherwise
fall back to the current attribute record (Python `or`) — or the
single no-history current row whose numeric fields all come from the
current attribute record. -/
theorem build_dim_property_numeric_fields (properties : List PropertyRec)
    (property_history : List HistRec) (row : DimPropertyRow)
    (hrow : row ∈ (build_dim_property properties property_history).1) :
    ∃ prop : PropertyRec,
      (row.tax_assessor_id, prop) ∈
        pyDict (properties.map (fun p => (p.tax_assessor_id, p))) ∧
      ((∃ h : HistRec, h ∈ property_history ∧
          h.tax_assessor_id = row.tax_assessor_id ∧
          row.assessed_value = h.assessed_value_total ∧
          row.market_value = h.market_value_total ∧
          row.building_sqft = pyOrInt h.building_sq_ft prop.building_sq_ft ∧
          row.land_sqft = pyOrInt h.lot_size_sq_ft prop.lot_size_sq_ft) ∨
        (row.assessed_value = prop.assessed_value_total ∧
         row.market_value = prop.market_value_total ∧
         row.building_sqft = prop.building_sq_ft ∧
         row.land_sqft = prop.lot_size_sq_ft)) := by
  have hrows : (build_dim_property properties property_history).1 =
      buildRows property_history
        (pyDict (properties.map (fun p => (p.tax_assessor_id, p)))) 1 := rfl
  obtain ⟨tax, prop, key2, hmem, hpr⟩ :=
    buildRows_mem property_history _ 1 row (hrows ▸ hrow)
  have htax : row.tax_assessor_id = tax :=
    propRows_tax property_history key2 tax prop row hpr
  refine ⟨prop, by rw [htax]; exact hmem, ?_⟩
  rcases propRows_mem_decomp property_history key2 tax prop row hpr with
    ⟨key3, hcur⟩ | ⟨h, key3, vto, cur, hhm, hhr⟩
  · right
    subst hcur
    exact ⟨rfl, rfl, rfl, rfl⟩
  · left
    obtain ⟨hph, htax2⟩ := mem_sortedHistories property_history tax h hhm
    subst hhr
    exact ⟨h, hph, by rw [htax]; exact htax2, rfl, rfl, rfl, rfl⟩

theorem build_dim_property_numeric_fields_witness :
    ∃ prop : PropertyRec,
      ((currentRow pwProp "PW" 1).tax_assessor_id, prop) ∈
        pyDict ([pwProp].map (fun p : PropertyRec => (p.tax_assessor_id, p))) ∧
      ((∃ h : HistRec, h ∈ ([] : List HistRec) ∧
          h.tax_assessor_id = (currentRow pwProp "PW" 1).tax_assessor_id ∧
          (currentRow pwProp "PW" 1).assessed_value = h.assessed_value_total ∧
          (currentRow pwProp "PW" 1).market_value = h.market_value_total ∧
          (currentRow pwProp "PW" 1).building_sqft =
            pyOrInt h.building_sq_ft prop.building_sq_ft ∧
          (currentRow pwProp "PW" 1).land_sqft =
            pyOrInt h.lot_size_sq_ft prop.lot_size_sq_ft) ∨
        ((currentRow pwProp "PW" 1).assessed_value =
            prop.assessed_value_total ∧
         (currentRow pwProp "PW" 1).market_value = prop.market_value_total ∧
         (currentRow pwProp "PW" 1).building_sqft = prop.building_sq_ft ∧
         (currentRow pwProp "PW" 1).land_sqft = prop.lot_size_sq_ft)) :=
  build_dim_property_numeric_fields [pwProp] [] (currentRow pwProp "PW" 1)
    (by decide)

/-! ### Entity-dimension lemmas (C7) -/

theorem entityIdentRows_key (oid : String) (ek ik : Nat)
    (vto : Option String) (r : DimEntityIdentifierRow)
    (hr : r ∈ entityIdentRows oid ek ik vto) : r.entity_key = ek := by
  unfold entityIdentRows at hr
  by_cases hc : ((pySplitDoubleColon oid).headD "" ≠ "")
  · rw [if_pos hc] at hr
    rcases List.mem_cons.mp hr with h | h
    · subst h
      rfl
    · rcases List.mem_singleton.mp h with h2
      subst h2
      rfl
  · rw [if_neg hc] at hr
    rcases List.mem_singleton.mp hr with h
    subst h
    rfl

theorem entityGo_dim_key_lb :
    ∀ (gs : List (String × EntityRaw)) (ek ik : Nat) (e : DimEntityRow),
      e ∈ (entityGo gs ek ik).1 → ek ≤ e.entity_key := by
  intro gs
  induction gs with
  | nil =>
    intro ek ik e he
    simp [entityGo] at he
  | cons g rest ih =>
    obtain ⟨oid, base⟩ := g
    intro ek ik e he
    simp only [entityGo] at he
    rcases List.mem_cons.mp he with h | h
    · subst h
      exact Nat.le_refl ek
    · have := ih (ek + 1) _ e h
      omega

theorem entityGo_ids_key_lb :
    ∀ (gs : List (String × EntityRaw)) (ek ik : Nat)
      (r : DimEntityIdentifierRow),
      r ∈ (entityGo gs ek ik).2 → ek ≤ r.entity_key := by
  intro gs
  induction gs with
  | nil =>
    intro ek ik r hr
    simp [entityGo] at hr
  | cons g rest ih =>
    obtain ⟨oid, base⟩ := g
    intro ek ik r hr
    simp only [entityGo] at hr
    rcases List.mem_append.mp hr with h | h
    · rw [entityIdentRows_key oid ek ik _ r h]
    · have := ih (ek + 1) _ r h
      omega

theorem entityIdentRows_primary_values (oid : String) (ek ik : Nat)
    (vto : Option String) :
    ((entityIdentRows oid ek ik vto).filter
      (fun r => r.entity_key = ek ∧ r.is_primary = true)).map
        (fun r => r.identifier_value) = [oid] := by
  unfold entityIdentRows
  by_cases hc : ((pySplitDoubleColon oid).headD "" ≠ "")
  · rw [if_pos hc]
    simp
  · rw [if_neg hc]
    simp

theorem entityIdentRows_secondary_values (oid : String) (ek ik : Nat)
    (vto : Option String) :
    ((entityIdentRows oid ek ik vto).filter
      (fun r => r.entity_key = ek ∧ r.is_primary = false)).map
        (fun r => r.identifier_value) =
      (if ((pySplitDoubleColon oid).headD "") ≠ ""
       then [(pySplitDoubleColon oid).headD ""] else []) := by
  unfold entityIdentRows
  by_cases hc : ((pySplitDoubleColon oid).headD "" ≠ "")
  · rw [if_pos hc, if_pos hc]
    simp
  · rw [if_neg hc, if_neg hc]
    simp

theorem entityGo_ident_filter :
    ∀ (gs : List (String × EntityRaw)) (ek ik : Nat) (e : DimEntityRow),
      e ∈ (entityGo gs ek ik).1 →
      ((((entityGo gs ek ik).2).filter
        (fun r => r.entity_key = e.entity_key ∧ r.is_primary = true)).map
          (fun r => r.identifier_value) = [e.canonical_entity_id]) ∧
      ((((entityGo gs ek ik).2).filter
        (fun r => r.entity_key = e.entity_key ∧ r.is_primary = false)).map
          (fun r => r.identifier_value) =
        (if ((pySplitDoubleColon e.canonical_entity_id).headD "") ≠ ""
         then [(pySplitDoubleColon e.canonical_entity_id).headD ""] else [])) := by
  intro gs
  induction gs with
  | nil =>
    intro ek ik e he
    simp [entityGo] at he
  | cons g rest ih =>
    obtain ⟨oid, base⟩ := g
    intro ek ik e he
    simp only [entityGo] at he ⊢
    rcases List.mem_cons.mp he with hcase | hcase
    · have hek : e.entity_key = ek := by
        rw [hcase]
      have hid : e.canonical_entity_id = oid := by
        rw [hcase]
      rw [hek, hid]
      have hnil1 : ((entityGo rest (ek + 1)
          (ik + (entityIdentRows oid ek ik base.last_seen_date).length)).2).filter
            (fun r => r.entity_key = ek ∧ r.is_primary = true) = [] := by
        apply List.filter_eq_nil_iff.mpr
        intro r hr
        simp only [decide_eq_true_eq]
        rintro ⟨h1, _⟩
        have := entityGo_ids_key_lb rest (ek + 1) _ r hr
        omega
      have hnil2 : ((entityGo rest (ek + 1)
          (ik + (entityIdentRows oid ek ik base.last_seen_date).length)).2).filter
            (fun r => r.entity_key = ek ∧ r.is_primary = false) = [] := by
        apply List.filter_eq_nil_iff.mpr
        intro r hr
        simp only [decide_eq_true_eq]
        rintro ⟨h1, _⟩
        have := entityGo_ids_key_lb rest (ek + 1) _ r hr
        omega
      constructor
      · rw [List.filter_append, hnil1, List.append_nil]
        exact entityIdentRows_primary_values oid ek ik base.last_seen_date
      · rw [List.filter_append, hnil2, List.append_nil]
        exact entityIdentRows_secondary_values oid ek ik base.last_seen_date
    · have hek : ek + 1 ≤ e.entity_key :=
        entityGo_dim_key_lb rest (ek + 1) _ e hcase
      have hnil1 : (entityIdentRows oid ek ik base.last_seen_date).filter
          (fun r => r.entity_key = e.entity_key ∧ r.is_primary = true) =
          [] := by
        apply List.filter_eq_nil_iff.mpr
        intro r hr
        simp only [decide_eq_true_eq]
        rintro ⟨h1, _⟩
        rw [entityIdentRows_key oid ek ik _ r hr] at h1
        omega
      have hnil2 : (entityIdentRows oid ek ik base.last_seen_date).filter
          (fun r => r.entity_key = e.entity_key ∧ r.is_primary = false) =
          [] := by
        apply List.filter_eq_nil_iff.mpr
        intro r hr
        simp only [decide_eq_true_eq]
        rintro ⟨h1, _⟩
        rw [entityIdentRows_key oid ek ik _ r hr] at h1
        omega
      obtain ⟨ih1, ih2⟩ := ih (ek + 1)
        (ik + (entityIdentRows oid ek ik base.last_seen_date).length) e hcase
      constructor
      · rw [List.filter_append, hnil1, List.nil_append]
        exact ih1
      · rw [List.filter_append, hnil2, List.nil_append]
        exact ih2

/-- C7 counterexample: the natural key `"ACME"` is not a composite of
`::`-separated parts (its split has a single part), yet
`build_dim_entity` emits a second, non-primary identifier row for it
(with the full key as value) — refuting the claimed "if and only if the
natural key is a composite". -/
theorem build_dim_entity_secondary_for_noncomposite :
    ((build_dim_entity [acmeRaw]).2.1.map
      (fun r => (r.is_primary, r.identifier_value))) =
      [(true, "ACME"), (false, "ACME")] ∧
    (pySplitDoubleColon "ACME").length = 1 := by
  exact ⟨by decide, by decide⟩

/-- C7 (amended): for every entity row, exactly one primary identifier
row is emitted, whose value is the full natural key; one additional
secondary (non-primary) identifier row, whose value is the first
`::`-separated part, is emitted if and only if that first part is
nonempty — which also holds for non-composite keys, where the secondary
value equals the whole key. -/
theorem build_dim_entity_identifier_rows (entities_raw : List EntityRaw)
    (e : DimEntityRow) (he : e ∈ (build_dim_entity entities_raw).1) :
    (((build_dim_entity entities_raw).2.1.filter
      (fun r => r.entity_key = e.entity_key ∧ r.is_primary = true)).map
        (fun r => r.identifier_value) = [e.canonical_entity_id]) ∧
    (((build_dim_entity entities_raw).2.1.filter
      (fun r => r.entity_key = e.entity_key ∧ r.is_primary = false)).map
        (fun r => r.identifier_value) =
      (if ((pySplitDoubleColon e.canonical_entity_id).headD "") ≠ ""
       then [(pySplitDoubleColon e.canonical_entity_id).headD ""] else [])) :=
  entityGo_ident_filter (entityGroups entities_raw) 1 1 e he

theorem build_dim_entity_identifier_rows_witness :
    (((build_dim_entity [compRaw]).2.1.filter
      (fun r => r.entity_key = compDimRow.entity_key ∧
        r.is_primary = true)).map
        (fun r => r.identifier_value) = [compDimRow.canonical_entity_id]) ∧
    (((build_dim_entity [compRaw]).2.1.filter
      (fun r => r.entity_key = compDimRow.entity_key ∧
        r.is_primary = false)).map
        (fun r => r.identifier_value) =
      (if ((pySplitDoubleColon compDimRow.canonical_entity_id).headD "") ≠ ""
       then [(pySplitDoubleColon compDimRow.canonical_entity_id).headD ""]
       else [])) :=
  build_dim_entity_identifier_rows [compRaw] compDimRow (by decide)

/-! ### Bridge lemmas (C8, C9) -/

theorem ownerSeqRows_proj (entity_key_lookup : List (String × Nat))
    (pk : Nat) :
    ∀ (owners : List EntityRaw) (seq bk : Nat),
      ((ownerSeqRows entity_key_lookup pk owners seq bk).1).map
        (fun r => (r.property_key, r.entity_key, r.ownership_sequence)) =
      (List.enumFrom seq owners).filterMap
        (fun p => (resolveEntity entity_key_lookup p.2).map
          (fun ek => (pk, ek, p.1))) := by
  intro owners
  induction owners with
  | nil =>
    intro seq bk
    rfl
  | cons o rest ih =>
    intro seq bk
    cases hre : resolveEntity entity_key_lookup o with
    | some ek =>
      simp only [ownerSeqRows, hre, List.enumFrom, List.filterMap_cons,
        Option.map_some', List.map_cons]
      exact congrArg _ (ih (seq + 1) (bk + 1))
    | none =>
      simp only [ownerSeqRows, hre, List.enumFrom, List.filterMap_cons,
        Option.map_none']
      exact ih (seq + 1) bk

theorem bridgeGo_proj (property_key_lookup entity_key_lookup :
    List (String × Nat)) :
    ∀ (gs : List (String × List EntityRaw)) (bk : Nat),
      (bridgeGo property_key_lookup entity_key_lookup gs bk).map
        (fun r => (r.property_key, r.entity_key, r.ownership_sequence)) =
      gs.flatMap (fun g =>
        match resolveProperty property_key_lookup g.1 with
        | some pk => (List.enumFrom 1 g.2).filterMap
            (fun p => (resolveEntity entity_key_lookup p.2).map
              (fun ek => (pk, ek, p.1)))
        | none => []) := by
  intro gs
  induction gs with
  | nil =>
    intro bk
    rfl
  | cons g rest ih =>
    obtain ⟨tax_id, owners⟩ := g
    intro bk
    cases hrp : resolveProperty property_key_lookup tax_id with
    | some pk =>
      simp only [bridgeGo, hrp, List.flatMap_cons, List.map_append]
      rw [ownerSeqRows_proj, ih]
    | none =>
      simp only [bridgeGo, hrp, List.flatMap_cons, List.nil_append]
      exact ih bk

/-- C9: `ownership_sequence` is the owner's 1-based position among all
owners grouped under the property in input order, counting owners skipped
by entity resolution (the `enumFrom 1 / filterMap` right-hand side); in
the concrete scenario where the first-listed owner is unresolved, the
single emitted row carries sequence 2, not 1. -/
theorem build_bridge_property_owner_sequence
    (entities_raw : List EntityRaw)
    (property_key_lookup entity_key_lookup : List (String × Nat)) :
    ((build_bridge_property_owner entities_raw property_key_lookup
        entity_key_lookup).map
      (fun r => (r.property_key, r.entity_key, r.ownership_sequence)) =
      (owners_by_property entities_raw).flatMap (fun g =>
        match resolveProperty property_key_lookup g.1 with
        | some pk => (List.enumFrom 1 g.2).filterMap
            (fun p => (resolveEntity entity_key_lookup p.2).map
              (fun ek => (pk, ek, p.1)))
        | none => [])) ∧
    ((build_bridge_property_owner [o1Raw, o2Raw] [("P1", 3)]
        [("O2", 7)]).map (fun r => r.ownership_sequence) = [2]) := by
  exact ⟨bridgeGo_proj property_key_lookup entity_key_lookup
    (owners_by_property entities_raw) 1, by decide⟩

theorem ownerSeqRows_keys (entity_key_lookup : List (String × Nat))
    (pk : Nat) :
    ∀ (owners : List EntityRaw) (seq bk : Nat)
      (r : BridgePropertyOwnerRow),
      r ∈ (ownerSeqRows entity_key_lookup pk owners seq bk).1 →
      r.property_key = pk ∧
      ∃ o ∈ owners, resolveEntity entity_key_lookup o = some r.entity_key := by
  intro owners
  induction owners with
  | nil =>
    intro seq bk r hr
    simp [ownerSeqRows] at hr
  | cons o rest ih =>
    intro seq bk r hr
    cases hre : resolveEntity entity_key_lookup o with
    | some ek =>
      simp only [ownerSeqRows, hre] at hr
      rcases List.mem_cons.mp hr with h | h
      · subst h
        exact ⟨rfl, o, List.mem_cons_self _ _, hre⟩
      · obtain ⟨h1, o2, ho2, hre2⟩ := ih (seq + 1) (bk + 1) r h
        exact ⟨h1, o2, List.mem_cons_of_mem _ ho2, hre2⟩
    | none =>
      simp only [ownerSeqRows, hre] at hr
      obtain ⟨h1, o2, ho2, hre2⟩ := ih (seq + 1) bk r hr
      exact ⟨h1, o2, List.mem_cons_of_mem _ ho2, hre2⟩

theorem bridgeGo_keys (property_key_lookup entity_key_lookup :
    List (String × Nat)) :
    ∀ (gs : List (String × List EntityRaw)) (bk : Nat)
      (r : BridgePropertyOwnerRow),
      r ∈ bridgeGo property_key_lookup entity_key_lookup gs bk →
      (∃ tax_id : String, resolveProperty property_key_lookup tax_id =
        some r.property_key) ∧
      (∃ g ∈ gs, ∃ o ∈ g.2,
        resolveEntity entity_key_lookup o = some r.entity_key) := by
  intro gs
  induction gs with
  | nil =>
    intro bk r hr
    simp [bridgeGo] at hr
  | cons g rest ih =>
    obtain ⟨tax_id, owners⟩ := g
    intro bk r hr
    cases hrp : resolveProperty property_key_lookup tax_id with
    | some pk =>
      simp only [bridgeGo, hrp] at hr
      rcases List.mem_append.mp hr with h | h
      · obtain ⟨h1, o, ho, hre⟩ :=
          ownerSeqRows_keys entity_key_lookup pk owners 1 bk r h
        exact ⟨⟨tax_id, by rw [hrp, h1]⟩,
          (tax_id, owners), List.mem_cons_self _ _, o, ho, hre⟩
      · obtain ⟨hp, g2, hg2, o, ho, hre⟩ := ih _ r h
        exact ⟨hp, g2, List.mem_cons_of_mem _ hg2, o, ho, hre⟩
    | none =>
      simp only [bridgeGo, hrp] at hr
      obtain ⟨hp, g2, hg2, o, ho, hre⟩ := ih bk r hr
      exact ⟨hp, g2, List.mem_cons_of_mem _ hg2, o, ho, hre⟩

theorem groupsOf_mem {K α : Type} [DecidableEq K]
    (pairs : List (K × α)) (g : K × List α) (hg : g ∈ groupsOf pairs)
    (a : α) (ha : a ∈ g.2) : (g.1, a) ∈ pairs := by
  unfold groupsOf at hg
  rcases List.mem_map.mp hg with ⟨k, _, hke⟩
  subst hke
  simp only at ha
  rcases List.mem_map.mp ha with ⟨p, hp, hpe⟩
  have hmem := List.mem_filter.mp hp
  have hk : p.1 = k := by simpa using hmem.2
  have : p = (k, a) := by
    cases p
    simp only at hk hpe
    simp [hk, hpe]
  exact this ▸ hmem.1

theorem propertyOwnerPairs_mem (entities_raw : List EntityRaw)
    (tax_id : String) (o : EntityRaw)
    (h : (tax_id, o) ∈ propertyOwnerPairs entities_raw) :
    o ∈ entities_raw := by
  unfold propertyOwnerPairs at h
  rcases List.mem_filterMap.mp h with ⟨e, he, hee⟩
  by_cases hc : (pyTruthyStr e.tax_assessor_id && pyTruthyStr e.owner_id) = true
  · rw [if_pos hc, Option.some_inj] at hee
    have : e = o := congrArg Prod.snd hee
    exact this ▸ he
  · rw [if_neg hc] at hee
    exact absurd hee (by simp)

theorem resolveProperty_dget (property_key_lookup : List (String × Nat))
    (tax_id : String) (pk : Nat)
    (h : resolveProperty property_key_lookup tax_id = some pk) :
    dget property_key_lookup tax_id = some pk := by
  unfold resolveProperty at h
  cases hd : dget property_key_lookup tax_id with
  | none =>
    rw [hd] at h
    exact absurd h (by simp)
  | some pk2 =>
    rw [hd] at h
    have h2 : (if pk2 = 0 then (none : Option Nat) else some pk2) =
        some pk := h
    by_cases hz : pk2 = 0
    · rw [if_pos hz] at h2
      exact absurd h2 (by simp)
    · rw [if_neg hz] at h2
      exact h2

theorem resolveEntity_dget (entity_key_lookup : List (String × Nat))
    (o : EntityRaw) (ek : Nat)
    (h : resolveEntity entity_key_lookup o = some ek) :
    dget entity_key_lookup (o.owner_id.getD "") = some ek := by
  unfold resolveEntity at h
  cases hd : dget entity_key_lookup (o.owner_id.getD "") with
  | none =>
    rw [hd] at h
    exact absurd h (by simp)
  | some ek2 =>
    rw [hd] at h
    have h2 : (if ek2 = 0 then (none : Option Nat) else some ek2) =
        some ek := h
    by_cases hz : ek2 = 0
    · rw [if_pos hz] at h2
      exact absurd h2 (by simp)
    · rw [if_neg hz] at h2
      exact h2

theorem build_dim_property_lookup_keys (properties : List PropertyRec)
    (property_history : List HistRec) (k : String) (pk : Nat)
    (h : dget (build_dim_property properties property_history).2 k =
      some pk) :
    ∃ row ∈ (build_dim_property properties property_history).1,
      row.property_key = pk := by
  have hmem := mem_pyDict _ _ (dget_mem _ k pk h)
  rcases List.mem_map.mp hmem with ⟨row, hrow, hrowe⟩
  refine ⟨row, List.mem_of_mem_filter hrow, ?_⟩
  exact congrArg Prod.snd hrowe

theorem build_dim_entity_lookup_keys (entities_raw : List EntityRaw)
    (k : String) (ek : Nat)
    (h : dget (build_dim_entity entities_raw).2.2 k = some ek) :
    ∃ e ∈ (build_dim_entity entities_raw).1, e.entity_key = ek := by
  have hmem := mem_pyDict _ _ (dget_mem _ k ek h)
  rcases List.mem_map.mp hmem with ⟨e, he, hee⟩
  exact ⟨e, he, congrArg Prod.snd hee⟩

/-- C8: when the bridge is built with the lookups produced by
`build_dim_property` and `build_dim_entity` in the same build, every
emitted row's `entity_key` is the `entity_key` of some `dim_entity`
output row, its `property_key` is the `property_key` of some
`dim_property` output row, and every row arises from an owner whose
natural key resolves in the entity lookup (unresolved owners produce no
row). -/
theorem build_bridge_property_owner_ri (properties : List PropertyRec)
    (property_history : List HistRec)
    (entities_for_dim owners : List EntityRaw)
    (row : BridgePropertyOwnerRow)
    (hrow : row ∈ build_bridge_property_owner owners
      (build_dim_property properties property_history).2
      (build_dim_entity entities_for_dim).2.2) :
    (∃ e ∈ (build_dim_entity entities_for_dim).1,
      e.entity_key = row.entity_key) ∧
    (∃ p ∈ (build_dim_property properties property_history).1,
      p.property_key = row.property_key) ∧
    (∃ o ∈ owners, resolveEntity (build_dim_entity entities_for_dim).2.2 o =
      some row.entity_key) := by
  obtain ⟨⟨tax_id, hrp⟩, g, hg, o, ho, hre⟩ :=
    bridgeGo_keys (build_dim_property properties property_history).2
      (build_dim_entity entities_for_dim).2.2
      (owners_by_property owners) 1 row hrow
  have homem : o ∈ owners := by
    have hpair := groupsOf_mem (propertyOwnerPairs owners) g hg o ho
    exact propertyOwnerPairs_mem owners g.1 o hpair
  refine ⟨?_, ?_, o, homem, hre⟩
  · exact build_dim_entity_lookup_keys entities_for_dim _ row.entity_key
      (resolveEntity_dget _ o row.entity_key hre)
  · exact build_dim_property_lookup_keys properties property_history tax_id
      row.property_key (resolveProperty_dget _ tax_id row.property_key hrp)

theorem build_bridge_property_owner_ri_witness :
    (∃ e ∈ (build_dim_entity [o1Raw]).1,
      e.entity_key = bridgeRowW.entity_key) ∧
    (∃ p ∈ (build_dim_property [p1Prop] []).1,
      p.property_key = bridgeRowW.property_key) ∧
    (∃ o ∈ [o1Raw], resolveEntity (build_dim_entity [o1Raw]).2.2 o =
      some bridgeRowW.entity_key) :=
  build_bridge_property_owner_ri [p1Prop] [] [o1Raw] [o1Raw] bridgeRowW
    (by decide)

end NedlData
